import Mathlib

/-!
Buffer-cache patch records (`src/buffer_cache/buf_patch.cc`).

A shallow embedding of the patch-record codec of the buffer cache: the three
record classes (`flush_patch_t`, `memcpy_patch_t`, `memmove_patch_t`), the
header codec (`buf_patch_t::serialize`, `buf_patch_t::load_patch`), the
payload constructors and `apply_to_buf`.

Memory is a list of bytes; a C pointer is a pair of such a list and an offset
into it.  Unsigned integers are natural numbers, reduced modulo `2 ^ 64` where
the C code computes in `size_t`.  A failing `guarantee` ends the computation
with an error value.
-/

set_option linter.unusedVariables false

namespace BufPatch

/-! ## Bytes, memory and machine integers -/

/-- One octet of memory. -/
abbrev Byte := Fin 256

/-- Modelled from the spec: `sizeof(size_t)`, the width of the length field and of
every offset and count field (8 bytes); the platform header is not part of the
sources. -/
def sizeof_size_t : Nat := 8

/-- Modelled from the spec: `sizeof(block_id)`; `block_id_t` is declared in a
header that is not part of the sources, the wire format gives it 8 bytes. -/
def sizeof_block_id : Nat := 8

/-- Modelled from the spec: `sizeof(patch_counter)`; `patch_counter_t` is declared
in a header that is not part of the sources, the wire format gives it 8 bytes. -/
def sizeof_patch_counter : Nat := 8

/-- Modelled from the spec: `sizeof(operation_code)`; `patch_operation_code_t` is
declared in a header that is not part of the sources, the wire format gives it
1 byte. -/
def sizeof_operation_code : Nat := 1

/-- Modelled from the spec: the value of `buf_patch_t::OPER_FLUSH`, declared in
`buf_patch.hpp` (not part of the sources); the wire format table gives 0. -/
def OPER_FLUSH : Nat := 0

/-- Modelled from the spec: the value of `buf_patch_t::OPER_MEMCPY`, declared in
`buf_patch.hpp` (not part of the sources); the wire format table gives 1. -/
def OPER_MEMCPY : Nat := 1

/-- Modelled from the spec: the value of `buf_patch_t::OPER_MEMMOVE`, declared in
`buf_patch.hpp` (not part of the sources); the wire format table gives 2. -/
def OPER_MEMMOVE : Nat := 2

/-- Number of values of a `size_t`: arithmetic on `size_t` is modulo this. -/
def SIZE_RANGE : Nat := 2 ^ 64

/-- Object representation of the unsigned integer `v` in `w` bytes, least
significant byte first (the byte order of the platforms the code targets). -/
def to_bytes : Nat → Nat → List Byte
  | 0, _ => []
  | w + 1, v => ⟨v % 256, Nat.mod_lt v (by decide)⟩ :: to_bytes w (v / 256)

/-- The unsigned integer whose object representation is the given bytes. -/
def of_bytes : List Byte → Nat
  | [] => 0
  | b :: bs => b.val + 256 * of_bytes bs

/-- The `n` bytes of memory `buf` that start at offset `p`. -/
def read_bytes (buf : List Byte) (p n : Nat) : List Byte :=
  (buf.drop p).take n

/-- The call `memcpy(buf + p, bs, bs.length)`: memory `buf` with the bytes `bs` stored from
offset `p` on. -/
def write_bytes (buf : List Byte) (p : Nat) (bs : List Byte) : List Byte :=
  buf.take p ++ bs ++ buf.drop (p + bs.length)

/-- The read `*((T*)(buf + p))` for an unsigned integer type `T` of `w` bytes. -/
def load_uint (buf : List Byte) (p w : Nat) : Nat :=
  of_bytes (read_bytes buf p w)

/-- The call `memcpy(buf + p, &v, sizeof(v))` for an unsigned integer `v` of `w` bytes. -/
def store_uint (buf : List Byte) (p w v : Nat) : List Byte :=
  write_bytes buf p (to_bytes w v)

/-! ## Records -/

/-- Which `guarantee` ended the computation. -/
inductive guarantee_failure
  /-- A `guarantee(condition)` on a length failed. -/
  | format_error
  /-- The call `guarantee(false, "Unsupported patch operation code")`. -/
  | unsupported_variant
deriving DecidableEq, Repr

deriving instance DecidableEq for Except

/-- An object of class `flush_patch_t`: the three members of `buf_patch_t`. -/
structure flush_patch_t where
  block_id : Nat
  patch_counter : Nat
  operation_code : Nat
deriving DecidableEq, Repr

/-- An object of class `memcpy_patch_t`. -/
structure memcpy_patch_t where
  block_id : Nat
  patch_counter : Nat
  operation_code : Nat
  dest_offset : Nat
  n : Nat
  src_buf : List Byte
deriving DecidableEq, Repr

/-- An object of class `memmove_patch_t`. -/
structure memmove_patch_t where
  block_id : Nat
  patch_counter : Nat
  operation_code : Nat
  src_offset : Nat
  dest_offset : Nat
  n : Nat
deriving DecidableEq, Repr

/-- A `buf_patch_t*` that is not null: an object of one of the three concrete
classes. -/
inductive buf_patch_t
  | flush (p : flush_patch_t)
  | memcpy (p : memcpy_patch_t)
  | memmove (p : memmove_patch_t)
deriving DecidableEq, Repr

/-- Member `block_id` of the base class. -/
def buf_patch_t.block_id : buf_patch_t → Nat
  | .flush p => p.block_id
  | .memcpy p => p.block_id
  | .memmove p => p.block_id

/-- Member `patch_counter` of the base class. -/
def buf_patch_t.patch_counter : buf_patch_t → Nat
  | .flush p => p.patch_counter
  | .memcpy p => p.patch_counter
  | .memmove p => p.patch_counter

/-- Member `operation_code` of the base class. -/
def buf_patch_t.operation_code : buf_patch_t → Nat
  | .flush p => p.operation_code
  | .memcpy p => p.operation_code
  | .memmove p => p.operation_code

/-! ## Constructors -/

/-- Constructor `flush_patch_t::flush_patch_t(block_id, patch_counter)`. -/
def flush_patch_t.create (block_id patch_counter : Nat) : flush_patch_t :=
  { block_id := block_id, patch_counter := patch_counter, operation_code := OPER_FLUSH }

/-- Constructor `flush_patch_t::flush_patch_t(block_id, patch_counter, data, data_length)`;
`data` points into `buf`. -/
def flush_patch_t.from_data (block_id patch_counter : Nat) (_buf : List Byte) (_data : Nat)
    (data_length : Nat) : Except guarantee_failure flush_patch_t :=
  if data_length = 0 then
    .ok { block_id := block_id, patch_counter := patch_counter, operation_code := OPER_FLUSH }
  else .error .format_error

/-- Constructor `memcpy_patch_t::memcpy_patch_t(block_id, patch_counter, dest_offset, src, n)`;
`src` points into `mem`. -/
def memcpy_patch_t.create (block_id patch_counter dest_offset : Nat) (mem : List Byte)
    (src : Nat) (n : Nat) : memcpy_patch_t :=
  { block_id := block_id, patch_counter := patch_counter, operation_code := OPER_MEMCPY,
    dest_offset := dest_offset, n := n, src_buf := read_bytes mem src n }

/-- Constructor `memcpy_patch_t::memcpy_patch_t(block_id, patch_counter, data, data_length)`;
`data` points into `buf`. -/
def memcpy_patch_t.from_data (block_id patch_counter : Nat) (buf : List Byte) (data : Nat)
    (data_length : Nat) : Except guarantee_failure memcpy_patch_t :=
  if ¬ (data_length ≥ sizeof_size_t + sizeof_size_t) then .error .format_error
  else
    let dest_offset := load_uint buf data sizeof_size_t
    let data := data + sizeof_size_t
    let n := load_uint buf data sizeof_size_t
    let data := data + sizeof_size_t
    if ¬ (data_length = (sizeof_size_t + sizeof_size_t + n) % SIZE_RANGE) then
      .error .format_error
    else
      .ok { block_id := block_id, patch_counter := patch_counter,
            operation_code := OPER_MEMCPY, dest_offset := dest_offset, n := n,
            src_buf := read_bytes buf data n }

/-- Constructor `memmove_patch_t::memmove_patch_t(block_id, patch_counter, dest_offset,
src_offset, n)`. -/
def memmove_patch_t.create (block_id patch_counter dest_offset src_offset n : Nat) :
    memmove_patch_t :=
  { block_id := block_id, patch_counter := patch_counter, operation_code := OPER_MEMCPY,
    src_offset := src_offset, dest_offset := dest_offset, n := n }

/-- Constructor `memmove_patch_t::memmove_patch_t(block_id, patch_counter, data, data_length)`;
`data` points into `buf`. -/
def memmove_patch_t.from_data (block_id patch_counter : Nat) (buf : List Byte) (data : Nat)
    (data_length : Nat) : Except guarantee_failure memmove_patch_t :=
  if ¬ (data_length = sizeof_size_t + sizeof_size_t + sizeof_size_t) then .error .format_error
  else
    let dest_offset := load_uint buf data sizeof_size_t
    let data := data + sizeof_size_t
    let src_offset := load_uint buf data sizeof_size_t
    let data := data + sizeof_size_t
    let n := load_uint buf data sizeof_size_t
    .ok { block_id := block_id, patch_counter := patch_counter,
          operation_code := OPER_MEMCPY, src_offset := src_offset,
          dest_offset := dest_offset, n := n }

/-! ## Payload size and payload encoders -/

/-- Method `flush_patch_t::get_data_size`. -/
def flush_patch_t.get_data_size (_p : flush_patch_t) : Nat := 0

/-- Method `memcpy_patch_t::get_data_size`. -/
def memcpy_patch_t.get_data_size (p : memcpy_patch_t) : Nat :=
  (sizeof_size_t + sizeof_size_t + p.n) % SIZE_RANGE

/-- Method `memmove_patch_t::get_data_size`. -/
def memmove_patch_t.get_data_size (_p : memmove_patch_t) : Nat :=
  sizeof_size_t + sizeof_size_t + sizeof_size_t

/-- The virtual `get_data_size` of a record. -/
def buf_patch_t.get_data_size : buf_patch_t → Nat
  | .flush p => p.get_data_size
  | .memcpy p => p.get_data_size
  | .memmove p => p.get_data_size

/-- Method `flush_patch_t::serialize_data`: nothing is written. -/
def flush_patch_t.serialize_data (_p : flush_patch_t) (buf : List Byte) (_destination : Nat) :
    List Byte := buf

/-- Method `memcpy_patch_t::serialize_data`; `destination` points into `buf`, the
memory after the call is returned. -/
def memcpy_patch_t.serialize_data (p : memcpy_patch_t) (buf : List Byte) (destination : Nat) :
    List Byte :=
  let buf := store_uint buf destination sizeof_size_t p.dest_offset
  let destination := destination + sizeof_size_t
  let buf := store_uint buf destination sizeof_size_t p.n
  let destination := destination + sizeof_size_t
  write_bytes buf destination (read_bytes p.src_buf 0 p.n)

/-- Method `memmove_patch_t::serialize_data`; `destination` points into `buf`, the
memory after the call is returned. -/
def memmove_patch_t.serialize_data (p : memmove_patch_t) (buf : List Byte) (destination : Nat) :
    List Byte :=
  let buf := store_uint buf destination sizeof_size_t p.dest_offset
  let destination := destination + sizeof_size_t
  let buf := store_uint buf destination sizeof_size_t p.src_offset
  let destination := destination + sizeof_size_t
  store_uint buf destination sizeof_size_t p.n

/-- The virtual `serialize_data` of a record. -/
def buf_patch_t.serialize_data : buf_patch_t → List Byte → Nat → List Byte
  | .flush p => p.serialize_data
  | .memcpy p => p.serialize_data
  | .memmove p => p.serialize_data

/-! ## Header codec -/

/-- Method `buf_patch_t::get_serialized_size`. -/
def buf_patch_t.get_serialized_size (p : buf_patch_t) : Nat :=
  (sizeof_size_t + sizeof_block_id + sizeof_patch_counter + sizeof_operation_code
    + p.get_data_size) % SIZE_RANGE

/-- Method `buf_patch_t::serialize`; `destination` points into `buf`, the memory after
the call is returned. -/
def buf_patch_t.serialize (p : buf_patch_t) (buf : List Byte) (destination : Nat) : List Byte :=
  let length := p.get_serialized_size
  let buf := store_uint buf destination sizeof_size_t length
  let destination := destination + sizeof_size_t
  let buf := store_uint buf destination sizeof_block_id p.block_id
  let destination := destination + sizeof_block_id
  let buf := store_uint buf destination sizeof_patch_counter p.patch_counter
  let destination := destination + sizeof_patch_counter
  let buf := store_uint buf destination sizeof_operation_code p.operation_code
  let destination := destination + sizeof_operation_code
  p.serialize_data buf destination

/-- Method `buf_patch_t::load_patch`; `source` points into `buf`.  The first component
is the value of the local pointer `source` when the call ends, the second is
what the call returns: `none` for `NULL`, an error for a failed `guarantee`. -/
def load_patch (buf : List Byte) (source : Nat) :
    Nat × Except guarantee_failure (Option buf_patch_t) :=
  let remaining_length := load_uint buf source sizeof_size_t
  let source := source + sizeof_size_t
  if remaining_length = 0 then (source, .ok none)
  else if ¬ (remaining_length ≥ sizeof_block_id + sizeof_patch_counter + sizeof_operation_code)
  then (source, .error .format_error)
  else
    let block_id := load_uint buf source sizeof_block_id
    let source := source + sizeof_block_id
    let patch_counter := load_uint buf source sizeof_patch_counter
    let source := source + sizeof_patch_counter
    let operation_code := load_uint buf source sizeof_operation_code
    let source := source + sizeof_operation_code
    if operation_code = OPER_FLUSH then
      (source, (flush_patch_t.from_data block_id patch_counter buf source remaining_length).map
        (fun p => some (buf_patch_t.flush p)))
    else if operation_code = OPER_MEMCPY then
      (source, (memcpy_patch_t.from_data block_id patch_counter buf source remaining_length).map
        (fun p => some (buf_patch_t.memcpy p)))
    else if operation_code = OPER_MEMMOVE then
      (source, (memcpy_patch_t.from_data block_id patch_counter buf source remaining_length).map
        (fun p => some (buf_patch_t.memcpy p)))
    else (source, .error .unsupported_variant)

/-! ## Applying a record to a page -/

/-- Method `memcpy_patch_t::apply_to_buf`; `buf_data` points into `mem`, the memory after
the call is returned. -/
def memcpy_patch_t.apply_to_buf (p : memcpy_patch_t) (mem : List Byte) (buf_data : Nat) :
    List Byte :=
  write_bytes mem (buf_data + p.dest_offset) (read_bytes p.src_buf 0 p.n)

/-- Method `memmove_patch_t::apply_to_buf`; `buf_data` points into `mem`, the memory
after the call is returned.  The source range is read before the destination
range is written. -/
def memmove_patch_t.apply_to_buf (p : memmove_patch_t) (mem : List Byte) (buf_data : Nat) :
    List Byte :=
  write_bytes mem (buf_data + p.dest_offset) (read_bytes mem (buf_data + p.src_offset) p.n)

/-! ## The bytes of a serialized record -/

/-- The bytes that the virtual `serialize_data` of a record stores, in the order
in which it stores them. -/
def buf_patch_t.payload_bytes : buf_patch_t → List Byte
  | .flush _ => []
  | .memcpy p => to_bytes 8 p.dest_offset ++ (to_bytes 8 p.n ++ read_bytes p.src_buf 0 p.n)
  | .memmove p => to_bytes 8 p.dest_offset ++ (to_bytes 8 p.src_offset ++ to_bytes 8 p.n)

/-- The bytes that `buf_patch_t::serialize` stores for a record, in the order in
which it stores them: length field, block id, sequence number, tag, payload. -/
def buf_patch_t.record_bytes (r : buf_patch_t) : List Byte :=
  to_bytes 8 r.get_serialized_size ++ (to_bytes 8 r.block_id ++ (to_bytes 8 r.patch_counter ++
    (to_bytes 1 r.operation_code ++ r.payload_bytes)))

/-- The record is the result of one of the three explicit-parameter
constructors, called with arguments that are values of their C types; the
source pointer of the Copy-In constructor has `n` readable bytes. -/
inductive buf_patch_t.constructed : buf_patch_t → Prop
  | flush (block_id patch_counter : Nat)
      (hb : block_id < 2 ^ 64) (hc : patch_counter < 2 ^ 64) :
      constructed (.flush (flush_patch_t.create block_id patch_counter))
  | memcpy (block_id patch_counter dest_offset : Nat) (mem : List Byte) (src n : Nat)
      (hb : block_id < 2 ^ 64) (hc : patch_counter < 2 ^ 64)
      (hd : dest_offset < SIZE_RANGE) (hn : n < SIZE_RANGE) (hsrc : src + n ≤ mem.length) :
      constructed (.memcpy (memcpy_patch_t.create block_id patch_counter dest_offset mem src n))
  | memmove (block_id patch_counter dest_offset src_offset n : Nat)
      (hb : block_id < 2 ^ 64) (hc : patch_counter < 2 ^ 64)
      (hd : dest_offset < SIZE_RANGE) (hs : src_offset < SIZE_RANGE) (hn : n < SIZE_RANGE) :
      constructed (.memmove
        (memmove_patch_t.create block_id patch_counter dest_offset src_offset n))

/-- The member `operation_code` of the record is the tag of the class the
record is an object of. -/
def buf_patch_t.tag_agrees : buf_patch_t → Prop
  | .flush p => p.operation_code = OPER_FLUSH
  | .memcpy p => p.operation_code = OPER_MEMCPY
  | .memmove p => p.operation_code = OPER_MEMMOVE

instance buf_patch_t.tag_agrees_decidable (r : buf_patch_t) : Decidable r.tag_agrees :=
  match r with
  | .flush p => inferInstanceAs (Decidable (p.operation_code = OPER_FLUSH))
  | .memcpy p => inferInstanceAs (Decidable (p.operation_code = OPER_MEMCPY))
  | .memmove p => inferInstanceAs (Decidable (p.operation_code = OPER_MEMMOVE))

/-- The record is an object the program can hold: its members are values of
their C types, a Copy-In record owns exactly the `n` bytes it was allocated
with, and the 25 header bytes plus the `16 + n` payload bytes of a Copy-In
record are a `size_t` value (the serialized record fits the address space). -/
def buf_patch_t.valid : buf_patch_t → Prop
  | .flush p => p.block_id < 2 ^ 64 ∧ p.patch_counter < 2 ^ 64 ∧ p.operation_code < 256
  | .memcpy p => p.block_id < 2 ^ 64 ∧ p.patch_counter < 2 ^ 64 ∧ p.operation_code < 256 ∧
      p.dest_offset < SIZE_RANGE ∧ p.src_buf.length = p.n ∧ 25 + 16 + p.n < SIZE_RANGE
  | .memmove p => p.block_id < 2 ^ 64 ∧ p.patch_counter < 2 ^ 64 ∧ p.operation_code < 256 ∧
      p.dest_offset < SIZE_RANGE ∧ p.src_offset < SIZE_RANGE ∧ p.n < SIZE_RANGE

instance buf_patch_t.valid_decidable (r : buf_patch_t) : Decidable r.valid :=
  match r with
  | .flush p => inferInstanceAs
      (Decidable (p.block_id < 2 ^ 64 ∧ p.patch_counter < 2 ^ 64 ∧ p.operation_code < 256))
  | .memcpy p => inferInstanceAs
      (Decidable (p.block_id < 2 ^ 64 ∧ p.patch_counter < 2 ^ 64 ∧ p.operation_code < 256 ∧
        p.dest_offset < SIZE_RANGE ∧ p.src_buf.length = p.n ∧ 25 + 16 + p.n < SIZE_RANGE))
  | .memmove p => inferInstanceAs
      (Decidable (p.block_id < 2 ^ 64 ∧ p.patch_counter < 2 ^ 64 ∧ p.operation_code < 256 ∧
        p.dest_offset < SIZE_RANGE ∧ p.src_offset < SIZE_RANGE ∧ p.n < SIZE_RANGE))

/-- A log buffer that holds the three records back to back, each written by
`serialize` where the one before it ends, followed by the 8 zero bytes of the
end-of-stream sentinel. -/
def three_record_stream (r1 r2 r3 : buf_patch_t) : List Byte :=
  let buf := List.replicate
    (r1.get_serialized_size + r2.get_serialized_size + r3.get_serialized_size + 8) 0
  let buf := r1.serialize buf 0
  let buf := r2.serialize buf r1.get_serialized_size
  r3.serialize buf (r1.get_serialized_size + r2.get_serialized_size)

/-! ## Memory lemmas -/

theorem to_bytes_length (w v : Nat) : (to_bytes w v).length = w := by
  induction w generalizing v with
  | zero => rfl
  | succ w ih => simp [to_bytes, ih]

theorem of_bytes_to_bytes (w v : Nat) : of_bytes (to_bytes w v) = v % 256 ^ w := by
  induction w generalizing v with
  | zero => simp [to_bytes, of_bytes, Nat.mod_one]
  | succ w ih =>
    simp only [to_bytes, of_bytes, ih]
    rw [pow_succ, mul_comm (256 ^ w) 256, Nat.mod_mul]

theorem of_bytes_lt (bs : List Byte) : of_bytes bs < 256 ^ bs.length := by
  induction bs with
  | nil => simp [of_bytes]
  | cons b bs ih =>
    simp only [of_bytes, List.length_cons, pow_succ]
    have hb := b.isLt
    omega

theorem read_bytes_length_le (buf : List Byte) (p n : Nat) : (read_bytes buf p n).length ≤ n := by
  simp [read_bytes]

theorem read_bytes_length (buf : List Byte) (p n : Nat) (h : p + n ≤ buf.length) :
    (read_bytes buf p n).length = n := by
  simp [read_bytes]
  omega

theorem load_uint_lt (buf : List Byte) (p w : Nat) : load_uint buf p w < 256 ^ w := by
  unfold load_uint
  calc of_bytes (read_bytes buf p w) < 256 ^ (read_bytes buf p w).length := of_bytes_lt _
    _ ≤ 256 ^ w := Nat.pow_le_pow_right (by decide) (read_bytes_length_le buf p w)

theorem write_bytes_length (buf : List Byte) (p : Nat) (bs : List Byte)
    (h : p + bs.length ≤ buf.length) : (write_bytes buf p bs).length = buf.length := by
  simp [write_bytes]
  omega

theorem read_bytes_write_bytes_before (buf : List Byte) (p w q : Nat) (bs : List Byte)
    (h1 : p + w ≤ q) (h2 : p + w ≤ buf.length) :
    read_bytes (write_bytes buf q bs) p w = read_bytes buf p w := by
  unfold read_bytes write_bytes
  rw [List.append_assoc, List.drop_append_of_le_length (by simp; omega),
    List.take_append_of_le_length (by simp; omega), List.drop_take,
    List.take_take]
  congr 1
  omega

theorem read_bytes_write_bytes_inside (buf : List Byte) (p k w : Nat) (bs : List Byte)
    (hp : p ≤ buf.length) (hk : k + w ≤ bs.length) :
    read_bytes (write_bytes buf p bs) (p + k) w = read_bytes bs k w := by
  unfold read_bytes write_bytes
  have hlen : (List.take p buf).length = p := by simp; omega
  rw [List.append_assoc, List.drop_append_eq_append_drop, hlen]
  have h0 : List.drop (p + k) (List.take p buf) = [] := by
    apply List.drop_eq_nil_of_le; omega
  rw [h0, List.nil_append, show p + k - p = k by omega, List.drop_append_of_le_length (by omega),
    List.take_append_of_le_length (by simp; omega)]

theorem write_bytes_write_bytes (buf : List Byte) (p : Nat) (a b : List Byte)
    (hp : p + a.length ≤ buf.length) :
    write_bytes (write_bytes buf p a) (p + a.length) b = write_bytes buf p (a ++ b) := by
  unfold write_bytes
  have hlen : (List.take p buf).length = p := by simp; omega
  have e1 : List.take (p + a.length) (List.take p buf ++ a ++ List.drop (p + a.length) buf)
      = List.take p buf ++ a := by
    rw [List.take_append_of_le_length (by simp; omega)]
    apply List.take_of_length_le; simp
  have e2 : List.drop (p + a.length + b.length)
      (List.take p buf ++ a ++ List.drop (p + a.length) buf)
      = List.drop (p + (a ++ b).length) buf := by
    rw [List.drop_append_eq_append_drop]
    have : List.drop (p + a.length + b.length) (List.take p buf ++ a) = [] := by
      apply List.drop_eq_nil_of_le; simp; omega
    rw [this, List.nil_append, List.drop_drop]
    congr 1
    simp
    omega
  rw [e1, e2]
  simp [List.append_assoc]

theorem write_bytes_getElem?_inside (buf : List Byte) (p i : Nat) (bs : List Byte)
    (hp : p ≤ buf.length) (hi : i < bs.length) :
    (write_bytes buf p bs)[p + i]? = bs[i]? := by
  unfold write_bytes
  have hlen : (List.take p buf).length = p := by simp; omega
  rw [List.append_assoc, List.getElem?_append_right (by omega), hlen,
    List.getElem?_append_left (by omega)]
  congr 1
  omega

theorem write_bytes_getElem?_outside (buf : List Byte) (p j : Nat) (bs : List Byte)
    (hp : p + bs.length ≤ buf.length) (hj : j < p ∨ p + bs.length ≤ j) :
    (write_bytes buf p bs)[j]? = buf[j]? := by
  unfold write_bytes
  have hlen : (List.take p buf).length = p := by simp; omega
  rcases hj with hj | hj
  · rw [List.append_assoc, List.getElem?_append_left (by omega), List.getElem?_take_of_lt hj]
  · rw [List.getElem?_append_right (by simp; omega), List.getElem?_drop]
    congr 1
    simp
    omega

/-- The payload constructor of `memcpy_patch_t` as one case distinction. -/
theorem memcpy_from_data_eq (block_id patch_counter : Nat) (buf : List Byte)
    (data data_length : Nat) (hsize : data_length < SIZE_RANGE) :
    memcpy_patch_t.from_data block_id patch_counter buf data data_length =
      if 16 ≤ data_length ∧ data_length - 16 = load_uint buf (data + 8) 8 then
        .ok { block_id := block_id, patch_counter := patch_counter,
              operation_code := OPER_MEMCPY, dest_offset := load_uint buf data 8,
              n := load_uint buf (data + 8) 8,
              src_buf := read_bytes buf (data + 16) (load_uint buf (data + 8) 8) }
      else .error .format_error := by
  have hn : load_uint buf (data + 8) 8 < 2 ^ 64 := by
    have := load_uint_lt buf (data + 8) 8
    norm_num at this ⊢
    exact this
  simp only [SIZE_RANGE] at hsize
  simp only [memcpy_patch_t.from_data, sizeof_size_t, SIZE_RANGE, Nat.add_assoc]
  by_cases h1 : data_length ≥ 8 + 8
  · by_cases h2 : data_length = (8 + (8 + load_uint buf (data + 8) 8)) % 2 ^ 64
    · have h3 : 16 ≤ data_length ∧ data_length - 16 = load_uint buf (data + 8) 8 := by omega
      rw [if_neg (not_not.mpr h1), if_neg (not_not.mpr h2), if_pos h3]
    · have h3 : ¬ (16 ≤ data_length ∧ data_length - 16 = load_uint buf (data + 8) 8) := by omega
      rw [if_neg (not_not.mpr h1), if_pos h2, if_neg h3]
  · have h3 : ¬ (16 ≤ data_length ∧ data_length - 16 = load_uint buf (data + 8) 8) := by omega
    rw [if_pos h1, if_neg h3]

theorem read_bytes_all (bs : List Byte) (n : Nat) (h : bs.length = n) :
    read_bytes bs 0 n = bs := by
  unfold read_bytes
  rw [List.drop_zero]
  apply List.take_of_length_le
  omega

theorem le_write_bytes_length (buf : List Byte) (p : Nat) (bs : List Byte) :
    buf.length ≤ (write_bytes buf p bs).length := by
  simp [write_bytes]
  omega

/-- A store at or beyond offset `p + w` leaves the `w` bytes at `p` as they were. -/
theorem write_bytes_keeps (buf : List Byte) (p w q : Nat) (bs x : List Byte)
    (hq : p + w ≤ q) (h : p + w ≤ buf.length ∧ read_bytes buf p w = x) :
    p + w ≤ (write_bytes buf q bs).length ∧ read_bytes (write_bytes buf q bs) p w = x := by
  refine ⟨le_trans h.1 (le_write_bytes_length buf q bs), ?_⟩
  rw [read_bytes_write_bytes_before buf p w q bs hq h.1]
  exact h.2

/-- The payload encoder, writing at or beyond offset `p + w`, leaves the `w`
bytes at `p` as they were. -/
theorem serialize_data_keeps (r : buf_patch_t) (buf : List Byte) (p w q : Nat) (x : List Byte)
    (hq : p + w ≤ q) (h : p + w ≤ buf.length ∧ read_bytes buf p w = x) :
    p + w ≤ (r.serialize_data buf q).length ∧ read_bytes (r.serialize_data buf q) p w = x := by
  cases r with
  | flush f => exact h
  | memcpy m =>
    simp only [buf_patch_t.serialize_data, memcpy_patch_t.serialize_data, store_uint]
    apply write_bytes_keeps _ _ _ _ _ _ (by omega)
    apply write_bytes_keeps _ _ _ _ _ _ (by omega)
    exact write_bytes_keeps _ _ _ _ _ _ hq h
  | memmove m =>
    simp only [buf_patch_t.serialize_data, memmove_patch_t.serialize_data, store_uint]
    apply write_bytes_keeps _ _ _ _ _ _ (by omega)
    apply write_bytes_keeps _ _ _ _ _ _ (by omega)
    exact write_bytes_keeps _ _ _ _ _ _ hq h

/-- The length field that `serialize` leaves at `destination`. -/
theorem serialize_length_field (r : buf_patch_t) (buf : List Byte) (destination : Nat)
    (hbuf : destination + 8 ≤ buf.length) :
    read_bytes (r.serialize buf destination) destination 8 = to_bytes 8 r.get_serialized_size := by
  simp only [buf_patch_t.serialize, store_uint, sizeof_size_t, sizeof_block_id,
    sizeof_patch_counter, sizeof_operation_code]
  refine (serialize_data_keeps r _ destination 8 _ _ (by omega) ?_).2
  apply write_bytes_keeps _ _ _ _ _ _ (by omega)
  apply write_bytes_keeps _ _ _ _ _ _ (by omega)
  apply write_bytes_keeps _ _ _ _ _ _ (by omega)
  have hl : (to_bytes 8 r.get_serialized_size).length = 8 := to_bytes_length _ _
  refine ⟨?_, ?_⟩
  · have := le_write_bytes_length buf destination (to_bytes 8 r.get_serialized_size)
    omega
  · have h := read_bytes_write_bytes_inside buf destination 0 8
      (to_bytes 8 r.get_serialized_size) (by omega) (by omega)
    rw [Nat.add_zero, read_bytes_all _ _ hl] at h
    exact h

/-- Two stores, the second right behind the first, are one store. -/
theorem write_bytes_append (buf : List Byte) (p q : Nat) (a b : List Byte)
    (hq : q = p + a.length) (hp : p + a.length ≤ buf.length) :
    write_bytes (write_bytes buf p a) q b = write_bytes buf p (a ++ b) := by
  subst hq
  exact write_bytes_write_bytes buf p a b hp

theorem write_bytes_nil (buf : List Byte) (p : Nat) : write_bytes buf p [] = buf := by
  simp [write_bytes]

/-- The payload encoder stores `payload_bytes` at `destination`. -/
theorem serialize_data_eq_write_bytes (r : buf_patch_t) (buf : List Byte) (destination : Nat)
    (hfit : destination + r.payload_bytes.length ≤ buf.length) :
    r.serialize_data buf destination = write_bytes buf destination r.payload_bytes := by
  cases r with
  | flush f =>
    simp only [buf_patch_t.serialize_data, flush_patch_t.serialize_data,
      buf_patch_t.payload_bytes, write_bytes_nil]
  | memcpy m =>
    simp only [buf_patch_t.payload_bytes, List.length_append, to_bytes_length] at hfit
    simp only [buf_patch_t.serialize_data, memcpy_patch_t.serialize_data, store_uint,
      buf_patch_t.payload_bytes, sizeof_size_t]
    rw [write_bytes_append buf destination (destination + 8) _ _
        (by rw [to_bytes_length]) (by rw [to_bytes_length]; omega),
      write_bytes_append buf destination (destination + 8 + 8) _ _
        (by simp only [List.length_append, to_bytes_length])
        (by simp only [List.length_append, to_bytes_length]; omega),
      List.append_assoc]
  | memmove m =>
    simp only [buf_patch_t.payload_bytes, List.length_append, to_bytes_length] at hfit
    simp only [buf_patch_t.serialize_data, memmove_patch_t.serialize_data, store_uint,
      buf_patch_t.payload_bytes, sizeof_size_t]
    rw [write_bytes_append buf destination (destination + 8) _ _
        (by rw [to_bytes_length]) (by rw [to_bytes_length]; omega),
      write_bytes_append buf destination (destination + 8 + 8) _ _
        (by simp only [List.length_append, to_bytes_length])
        (by simp only [List.length_append, to_bytes_length]; omega),
      List.append_assoc]

theorem record_bytes_length (r : buf_patch_t) :
    r.record_bytes.length = 25 + r.payload_bytes.length := by
  simp only [buf_patch_t.record_bytes, List.length_append, to_bytes_length]
  omega

/-- The encoder stores `record_bytes` at `destination`. -/
theorem serialize_eq_write_bytes (r : buf_patch_t) (buf : List Byte) (destination : Nat)
    (hfit : destination + r.record_bytes.length ≤ buf.length) :
    r.serialize buf destination = write_bytes buf destination r.record_bytes := by
  rw [record_bytes_length] at hfit
  simp only [buf_patch_t.serialize, store_uint, sizeof_size_t, sizeof_block_id,
    sizeof_patch_counter, sizeof_operation_code]
  rw [write_bytes_append buf destination (destination + 8) _ _
      (by rw [to_bytes_length]) (by rw [to_bytes_length]; omega),
    write_bytes_append buf destination (destination + 8 + 8) _ _
      (by simp only [List.length_append, to_bytes_length])
      (by simp only [List.length_append, to_bytes_length]; omega),
    write_bytes_append buf destination (destination + 8 + 8 + 8) _ _
      (by simp only [List.length_append, to_bytes_length])
      (by simp only [List.length_append, to_bytes_length]; omega),
    serialize_data_eq_write_bytes r _ _
      (by rw [write_bytes_length _ _ _
            (by simp only [List.length_append, to_bytes_length]; omega)]; omega),
    write_bytes_append buf destination (destination + 8 + 8 + 8 + 1) _ _
      (by simp only [List.length_append, to_bytes_length])
      (by simp only [List.length_append, to_bytes_length]; omega)]
  simp only [buf_patch_t.record_bytes, List.append_assoc]

/-- An integer field read back from a stored byte sequence. -/
theorem load_uint_write_bytes (buf : List Byte) (p k w : Nat) (bs : List Byte)
    (hp : p ≤ buf.length) (hk : k + w ≤ bs.length) :
    load_uint (write_bytes buf p bs) (p + k) w = of_bytes (read_bytes bs k w) := by
  unfold load_uint
  rw [read_bytes_write_bytes_inside buf p k w bs hp hk]

theorem read_bytes_append_left (a b : List Byte) (w : Nat) (h : a.length = w) :
    read_bytes (a ++ b) 0 w = a := by
  subst h
  simp [read_bytes]

theorem read_bytes_append_right (a b : List Byte) (k j w : Nat) (h : k = a.length + j) :
    read_bytes (a ++ b) k w = read_bytes b j w := by
  subst h
  simp [read_bytes]

/-! ## The header decoder on sentinels and malformed headers -/

/-- C4: when the eight bytes of the length field at the cursor are all zero,
`load_patch` returns `NULL` (no record, no failed `guarantee`), whatever the
rest of the buffer holds, and its cursor `source` stands exactly 8 bytes past
where it started. -/
theorem load_patch_sentinel (buf : List Byte) (source : Nat)
    (hzero : read_bytes buf source 8 = List.replicate 8 0) :
    load_patch buf source = (source + 8, .ok none) := by
  have h : load_uint buf source 8 = 0 := by
    unfold load_uint
    rw [hzero]
    decide
  simp [load_patch, sizeof_size_t, h]

/-- A sentinel followed by arbitrary bytes, read at offset 0. -/
theorem load_patch_sentinel_witness :
    read_bytes (List.replicate 8 0 ++ [7, 99, 255]) 0 8 = List.replicate 8 0 ∧
    load_patch (List.replicate 8 0 ++ [7, 99, 255]) 0 = (0 + 8, .ok none) :=
  ⟨by decide, load_patch_sentinel (List.replicate 8 0 ++ [7, 99, 255]) 0 (by decide)⟩

/-- C5: when the length field at the cursor is non-zero and smaller than the 17
bytes of block id, sequence number and tag, `load_patch` ends in a failed length
`guarantee` (a format error) and returns no record, whatever the rest of the
buffer holds. -/
theorem load_patch_short_length (buf : List Byte) (source : Nat)
    (hbuf : source + 8 ≤ buf.length)
    (hnz : load_uint buf source 8 ≠ 0)
    (hlt : load_uint buf source 8 < 17) :
    sizeof_block_id + sizeof_patch_counter + sizeof_operation_code = 17 ∧
    (load_patch buf source).2 = .error .format_error := by
  refine ⟨by decide, ?_⟩
  have hnz2 : ¬ load_uint buf source sizeof_size_t = 0 := hnz
  have hlt2 : ¬ (load_uint buf source sizeof_size_t
      ≥ sizeof_block_id + sizeof_patch_counter + sizeof_operation_code) := by
    simp only [sizeof_size_t, sizeof_block_id, sizeof_patch_counter, sizeof_operation_code]
    omega
  simp only [load_patch, if_neg hnz2, hlt2, not_false_eq_true, if_true]

/-- A length field of 16 in front of a full Flush header. -/
theorem load_patch_short_length_witness :
    (load_patch (to_bytes 8 16 ++ to_bytes 8 1 ++ to_bytes 8 2 ++ to_bytes 1 0) 0).2
      = .error .format_error :=
  (load_patch_short_length (to_bytes 8 16 ++ to_bytes 8 1 ++ to_bytes 8 2 ++ to_bytes 1 0) 0
    (by decide) (by decide) (by decide)).2

/-- C6: when the length field is at least 17 and the tag byte is none of
`OPER_FLUSH`, `OPER_MEMCPY`, `OPER_MEMMOVE`, `load_patch` ends in
`guarantee(false, "Unsupported patch operation code")` and returns no record,
whatever block id, sequence number and payload bytes the buffer holds. -/
theorem load_patch_unknown_tag (buf : List Byte) (source : Nat)
    (hbuf : source + 25 ≤ buf.length)
    (hlen : 17 ≤ load_uint buf source 8)
    (hflush : load_uint buf (source + 24) 1 ≠ OPER_FLUSH)
    (hmemcpy : load_uint buf (source + 24) 1 ≠ OPER_MEMCPY)
    (hmemmove : load_uint buf (source + 24) 1 ≠ OPER_MEMMOVE) :
    (load_patch buf source).2 = .error .unsupported_variant := by
  have hnz : ¬ load_uint buf source sizeof_size_t = 0 := by
    simp only [sizeof_size_t]; omega
  have hge : ¬ ¬ (load_uint buf source sizeof_size_t
      ≥ sizeof_block_id + sizeof_patch_counter + sizeof_operation_code) := by
    simp only [sizeof_size_t, sizeof_block_id, sizeof_patch_counter, sizeof_operation_code]
    omega
  have e : source + sizeof_size_t + sizeof_block_id + sizeof_patch_counter = source + 24 := by
    simp only [sizeof_size_t, sizeof_block_id, sizeof_patch_counter]
  have hflush2 : ¬ load_uint buf (source + 24) sizeof_operation_code = OPER_FLUSH := hflush
  have hmemcpy2 : ¬ load_uint buf (source + 24) sizeof_operation_code = OPER_MEMCPY := hmemcpy
  have hmemmove2 : ¬ load_uint buf (source + 24) sizeof_operation_code = OPER_MEMMOVE := hmemmove
  simp only [load_patch, if_neg hnz, if_neg hge, e, if_neg hflush2, if_neg hmemcpy2,
    if_neg hmemmove2]

/-- A header with tag 99, length field 17. -/
theorem load_patch_unknown_tag_witness :
    load_uint (to_bytes 8 17 ++ to_bytes 8 1 ++ to_bytes 8 2 ++ to_bytes 1 99) 24 1 = 99 ∧
    (load_patch (to_bytes 8 17 ++ to_bytes 8 1 ++ to_bytes 8 2 ++ to_bytes 1 99) 0).2
      = .error .unsupported_variant :=
  ⟨by decide,
   load_patch_unknown_tag (to_bytes 8 17 ++ to_bytes 8 1 ++ to_bytes 8 2 ++ to_bytes 1 99) 0
    (by decide) (by decide) (by decide) (by decide) (by decide)⟩

/-! ## The payload constructors -/

/-- C7: the payload constructor of `memcpy_patch_t` succeeds exactly when
`data_length` is at least 16 and `data_length - 16` equals the count `n` held in
payload bytes 8..15; the record then carries the given block id and sequence
number, `dest_offset` from payload bytes 0..7, the count `n`, and as owned bytes
the `n` payload bytes from offset 16 on; in every other case a length
`guarantee` fails (format error). -/
theorem memcpy_from_data_spec (block_id patch_counter : Nat) (buf : List Byte)
    (data data_length : Nat)
    (hsize : data_length < SIZE_RANGE)
    (hbuf : data + data_length ≤ buf.length) :
    ((∃ r, memcpy_patch_t.from_data block_id patch_counter buf data data_length = .ok r) ↔
      (16 ≤ data_length ∧ data_length - 16 = load_uint buf (data + 8) 8)) ∧
    (∀ r, memcpy_patch_t.from_data block_id patch_counter buf data data_length = .ok r →
      r.block_id = block_id ∧ r.patch_counter = patch_counter ∧
      r.dest_offset = load_uint buf data 8 ∧
      r.n = load_uint buf (data + 8) 8 ∧
      r.src_buf = read_bytes buf (data + 16) r.n ∧
      r.src_buf.length = r.n) ∧
    (¬ (16 ≤ data_length ∧ data_length - 16 = load_uint buf (data + 8) 8) →
      memcpy_patch_t.from_data block_id patch_counter buf data data_length
        = .error .format_error) := by
  rw [memcpy_from_data_eq block_id patch_counter buf data data_length hsize]
  by_cases h : 16 ≤ data_length ∧ data_length - 16 = load_uint buf (data + 8) 8
  · rw [if_pos h]
    refine ⟨⟨fun _ => h, fun _ => ⟨_, rfl⟩⟩, ?_, fun hn => absurd h hn⟩
    intro r hr
    cases hr
    refine ⟨rfl, rfl, rfl, rfl, rfl, ?_⟩
    apply read_bytes_length
    omega
  · rw [if_neg h]
    refine ⟨⟨?_, fun hh => absurd hh h⟩, ?_, fun _ => rfl⟩
    · rintro ⟨r, hr⟩
      cases hr
    · intro r hr
      cases hr

/-- A payload of 19 bytes: `dest_offset = 4`, `n = 3`, bytes `AA BB CC`. -/
theorem memcpy_from_data_spec_witness :
    memcpy_patch_t.from_data 1 2 (to_bytes 8 4 ++ to_bytes 8 3 ++ [0xAA, 0xBB, 0xCC]) 0 19
      = .ok { block_id := 1, patch_counter := 2, operation_code := OPER_MEMCPY,
              dest_offset := 4, n := 3, src_buf := [0xAA, 0xBB, 0xCC] } ∧
    ∃ r, memcpy_patch_t.from_data 1 2 (to_bytes 8 4 ++ to_bytes 8 3 ++ [0xAA, 0xBB, 0xCC]) 0 19
      = .ok r :=
  ⟨by decide,
   (memcpy_from_data_spec 1 2 (to_bytes 8 4 ++ to_bytes 8 3 ++ [0xAA, 0xBB, 0xCC]) 0 19
     (by decide) (by decide)).1.mpr (by decide)⟩

/-- C8: the payload constructor of `memmove_patch_t` succeeds exactly when
`data_length` is 24; the record then carries the given block id and sequence
number and `dest_offset`, `src_offset`, `n` from payload bytes 0..7, 8..15 and
16..23, in that order; for every other `data_length` the length `guarantee`
fails (format error). -/
theorem memmove_from_data_spec (block_id patch_counter : Nat) (buf : List Byte)
    (data data_length : Nat) :
    ((∃ r, memmove_patch_t.from_data block_id patch_counter buf data data_length = .ok r) ↔
      data_length = 24) ∧
    (∀ r, memmove_patch_t.from_data block_id patch_counter buf data data_length = .ok r →
      r.block_id = block_id ∧ r.patch_counter = patch_counter ∧
      r.dest_offset = load_uint buf data 8 ∧
      r.src_offset = load_uint buf (data + 8) 8 ∧
      r.n = load_uint buf (data + 16) 8) ∧
    (data_length ≠ 24 →
      memmove_patch_t.from_data block_id patch_counter buf data data_length
        = .error .format_error) := by
  simp only [memmove_patch_t.from_data, sizeof_size_t, Nat.add_assoc]
  by_cases h : data_length = 24
  · subst h
    refine ⟨⟨fun _ => rfl, fun _ => ⟨_, rfl⟩⟩, ?_, fun hn => absurd rfl hn⟩
    intro r hr
    cases hr
    exact ⟨rfl, rfl, rfl, rfl, rfl⟩
  · have h2 : ¬ data_length = 8 + (8 + 8) := h
    rw [if_pos h2]
    refine ⟨⟨?_, fun hh => absurd hh h⟩, ?_, fun _ => rfl⟩
    · rintro ⟨r, hr⟩
      cases hr
    · intro r hr
      cases hr

/-- A payload of 24 bytes decodes, one of 25 bytes does not. -/
theorem memmove_from_data_spec_witness :
    memmove_patch_t.from_data 1 2 (to_bytes 8 5 ++ to_bytes 8 6 ++ to_bytes 8 7) 0 24
      = .ok { block_id := 1, patch_counter := 2, operation_code := OPER_MEMCPY,
              src_offset := 6, dest_offset := 5, n := 7 } ∧
    memmove_patch_t.from_data 1 2 (to_bytes 8 5 ++ to_bytes 8 6 ++ to_bytes 8 7 ++ [0]) 0 25
      = .error .format_error :=
  ⟨by decide,
   (memmove_from_data_spec 1 2 (to_bytes 8 5 ++ to_bytes 8 6 ++ to_bytes 8 7 ++ [0]) 0 25).2.2
     (by decide)⟩

/-- C9: the payload constructor of `flush_patch_t` succeeds exactly when
`data_length` is 0; the record is then the Flush record of the given block id
and sequence number, whose `get_data_size` is 0; for every non-zero
`data_length` the length `guarantee` fails (format error). -/
theorem flush_from_data_spec (block_id patch_counter : Nat) (buf : List Byte)
    (data data_length : Nat) :
    ((∃ r, flush_patch_t.from_data block_id patch_counter buf data data_length = .ok r) ↔
      data_length = 0) ∧
    (∀ r, flush_patch_t.from_data block_id patch_counter buf data data_length = .ok r →
      r = flush_patch_t.create block_id patch_counter ∧
      r.block_id = block_id ∧ r.patch_counter = patch_counter ∧
      (buf_patch_t.flush r).get_data_size = 0) ∧
    (data_length ≠ 0 →
      flush_patch_t.from_data block_id patch_counter buf data data_length
        = .error .format_error) := by
  simp only [flush_patch_t.from_data]
  by_cases h : data_length = 0
  · rw [if_pos h]
    refine ⟨⟨fun _ => h, fun _ => ⟨_, rfl⟩⟩, ?_, fun hn => absurd h hn⟩
    intro r hr
    cases hr
    exact ⟨rfl, rfl, rfl, rfl⟩
  · rw [if_neg h]
    refine ⟨⟨?_, fun hh => absurd hh h⟩, ?_, fun _ => rfl⟩
    · rintro ⟨r, hr⟩
      cases hr
    · intro r hr
      cases hr

/-- An empty payload decodes, a payload of one byte does not. -/
theorem flush_from_data_spec_witness :
    flush_patch_t.from_data 1 2 [] 0 0 = .ok (flush_patch_t.create 1 2) ∧
    flush_patch_t.from_data 1 2 [5] 0 1 = .error .format_error :=
  ⟨by decide, (flush_from_data_spec 1 2 [5] 0 1).2.2 (by decide)⟩

/-! ## Applying a Copy-In record -/

/-- C10: for a Copy-In record with `dest_offset = d` whose owned buffer holds
its `n` bytes, and a page (the memory at `buf_data`) with room for `d + n`
bytes, `memcpy_patch_t::apply_to_buf` leaves the length of the memory
unchanged, puts the owned bytes at page positions `d .. d + n - 1` and leaves
every other byte as it was; on a zeroed 8-byte page the record with
`dest_offset = 4` and bytes `AA BB CC` gives `0 0 0 0 AA BB CC 0`. -/
theorem memcpy_apply_to_buf_spec (p : memcpy_patch_t) (mem : List Byte) (buf_data : Nat)
    (hinv : p.src_buf.length = p.n)
    (hfit : buf_data + p.dest_offset + p.n ≤ mem.length) :
    (p.apply_to_buf mem buf_data).length = mem.length ∧
    (∀ i, i < p.n →
      (p.apply_to_buf mem buf_data)[buf_data + p.dest_offset + i]? = p.src_buf[i]?) ∧
    (∀ j, j < buf_data + p.dest_offset ∨ buf_data + p.dest_offset + p.n ≤ j →
      (p.apply_to_buf mem buf_data)[j]? = mem[j]?) ∧
    (∀ block_id patch_counter,
      (memcpy_patch_t.create block_id patch_counter 4 [0xAA, 0xBB, 0xCC] 0 3).apply_to_buf
        (List.replicate 8 0) 0 = [0, 0, 0, 0, 0xAA, 0xBB, 0xCC, 0]) := by
  unfold memcpy_patch_t.apply_to_buf
  rw [read_bytes_all p.src_buf p.n hinv]
  refine ⟨?_, ?_, ?_, fun _ _ => rfl⟩
  · apply write_bytes_length
    omega
  · intro i hi
    apply write_bytes_getElem?_inside
    · omega
    · omega
  · intro j hj
    apply write_bytes_getElem?_outside
    · omega
    · omega

/-- The record with `dest_offset = 4` and bytes `AA BB CC` on a zeroed 8-byte
page: the byte at position 5 is `BB`, the byte at position 7 is untouched. -/
theorem memcpy_apply_to_buf_spec_witness :
    ((memcpy_patch_t.create 1 2 4 [0xAA, 0xBB, 0xCC] 0 3).apply_to_buf
      (List.replicate 8 0) 0).length = 8 ∧
    ((memcpy_patch_t.create 1 2 4 [0xAA, 0xBB, 0xCC] 0 3).apply_to_buf
      (List.replicate 8 0) 0)[5]? = some 0xBB ∧
    ((memcpy_patch_t.create 1 2 4 [0xAA, 0xBB, 0xCC] 0 3).apply_to_buf
      (List.replicate 8 0) 0)[7]? = some 0 :=
  have h := memcpy_apply_to_buf_spec (memcpy_patch_t.create 1 2 4 [0xAA, 0xBB, 0xCC] 0 3)
    (List.replicate 8 0) 0 (by decide) (by decide)
  ⟨h.1, h.2.1 1 (by decide), h.2.2.1 7 (by decide)⟩

/-! ## The header encoder -/

/-- C2, as the claim states it, fails: for the Flush record of block 1 and
sequence number 2 the length field written by `serialize` holds 25, not
17 plus the payload size 0. -/
theorem serialize_length_field_not_header_tail :
    load_uint ((buf_patch_t.flush (flush_patch_t.create 1 2)).serialize
        (List.replicate 25 0) 0) 0 8 = 25 ∧
    load_uint ((buf_patch_t.flush (flush_patch_t.create 1 2)).serialize
        (List.replicate 25 0) 0) 0 8
      ≠ 17 + (buf_patch_t.flush (flush_patch_t.create 1 2)).get_data_size := by
  decide

/-- C2, amended: the value that `serialize` writes into the first 8 bytes is
`get_serialized_size`, the size of the whole serialized record: the 8 bytes of
the length field itself, plus the 17 bytes of block id, sequence number and
tag, plus the payload size `get_data_size` (in `size_t` arithmetic). -/
theorem serialize_length_field_is_serialized_size (r : buf_patch_t) (buf : List Byte)
    (destination : Nat) (hbuf : destination + 8 ≤ buf.length) :
    load_uint (r.serialize buf destination) destination 8 = r.get_serialized_size ∧
    r.get_serialized_size = (8 + 17 + r.get_data_size) % 2 ^ 64 := by
  have hsz : r.get_serialized_size = (8 + 17 + r.get_data_size) % 2 ^ 64 := by
    simp only [buf_patch_t.get_serialized_size, sizeof_size_t, sizeof_block_id,
      sizeof_patch_counter, sizeof_operation_code, SIZE_RANGE]
  refine ⟨?_, hsz⟩
  unfold load_uint
  rw [serialize_length_field r buf destination hbuf, of_bytes_to_bytes, hsz]
  norm_num

/-- The Copy-In record with three owned bytes, written at offset 2 of a
46-byte buffer: the length field holds 44 = 8 + 17 + 19. -/
theorem serialize_length_field_is_serialized_size_witness :
    load_uint ((buf_patch_t.memcpy (memcpy_patch_t.create 1 2 4 [0xAA, 0xBB, 0xCC] 0 3)).serialize
      (List.replicate 46 0) 2) 2 8 = 44 :=
  (serialize_length_field_is_serialized_size
    (buf_patch_t.memcpy (memcpy_patch_t.create 1 2 4 [0xAA, 0xBB, 0xCC] 0 3))
    (List.replicate 46 0) 2 (by decide)).1.trans (by decide)

/-! ## Decoding what the encoder wrote -/

theorem load_patch_unfold (buf : List Byte) (source : Nat) :
    load_patch buf source =
      if load_uint buf source 8 = 0 then (source + 8, .ok none)
      else if load_uint buf source 8 < 17 then (source + 8, .error .format_error)
      else if load_uint buf (source + 24) 1 = OPER_FLUSH then
        (source + 25, (flush_patch_t.from_data (load_uint buf (source + 8) 8)
          (load_uint buf (source + 16) 8) buf (source + 25) (load_uint buf source 8)).map
          (fun p => some (buf_patch_t.flush p)))
      else if load_uint buf (source + 24) 1 = OPER_MEMCPY
          ∨ load_uint buf (source + 24) 1 = OPER_MEMMOVE then
        (source + 25, (memcpy_patch_t.from_data (load_uint buf (source + 8) 8)
          (load_uint buf (source + 16) 8) buf (source + 25) (load_uint buf source 8)).map
          (fun p => some (buf_patch_t.memcpy p)))
      else (source + 25, .error .unsupported_variant) := by
  simp only [load_patch, sizeof_size_t, sizeof_block_id, sizeof_patch_counter,
    sizeof_operation_code, Nat.add_assoc, Nat.reduceAdd, ge_iff_le, not_le]
  split
  · rfl
  · split
    · rfl
    · split
      · rfl
      · by_cases h1 : load_uint buf (source + 24) 1 = OPER_MEMCPY
        · rw [if_pos h1, if_pos (Or.inl h1)]
        · by_cases h2 : load_uint buf (source + 24) 1 = OPER_MEMMOVE
          · rw [if_neg h1, if_pos h2, if_pos (Or.inr h2)]
          · rw [if_neg h1, if_neg h2, if_neg (not_or.mpr ⟨h1, h2⟩)]

theorem record_bytes_tag (r : buf_patch_t) :
    read_bytes r.record_bytes 24 1 = to_bytes 1 r.operation_code := by
  unfold buf_patch_t.record_bytes
  rw [read_bytes_append_right _ _ 24 16 1 (by rw [to_bytes_length]),
    read_bytes_append_right _ _ 16 8 1 (by rw [to_bytes_length]),
    read_bytes_append_right _ _ 8 0 1 (by rw [to_bytes_length]),
    read_bytes_append_left _ _ 1 (to_bytes_length _ _)]

theorem record_bytes_payload (r : buf_patch_t) (k w : Nat) :
    read_bytes r.record_bytes (25 + k) w = read_bytes r.payload_bytes k w := by
  unfold buf_patch_t.record_bytes
  rw [read_bytes_append_right _ _ (25 + k) (17 + k) w (by rw [to_bytes_length]; omega),
    read_bytes_append_right _ _ (17 + k) (9 + k) w (by rw [to_bytes_length]; omega),
    read_bytes_append_right _ _ (9 + k) (1 + k) w (by rw [to_bytes_length]; omega),
    read_bytes_append_right _ _ (1 + k) k w (by rw [to_bytes_length])]

/-- The length field read back after `serialize`. -/
theorem load_uint_serialize_length (r : buf_patch_t) (buf : List Byte) (destination : Nat)
    (hbuf : destination + 8 ≤ buf.length) :
    load_uint (r.serialize buf destination) destination 8 = r.get_serialized_size := by
  unfold load_uint
  rw [serialize_length_field r buf destination hbuf, of_bytes_to_bytes]
  simp only [buf_patch_t.get_serialized_size, SIZE_RANGE]
  norm_num

/-- The tag byte read back after `serialize`. -/
theorem load_uint_serialize_tag (r : buf_patch_t) (buf : List Byte) (destination : Nat)
    (hfit : destination + r.record_bytes.length ≤ buf.length) :
    load_uint (r.serialize buf destination) (destination + 24) 1 = r.operation_code % 256 := by
  have hl := record_bytes_length r
  rw [serialize_eq_write_bytes r buf destination hfit,
    load_uint_write_bytes buf destination 24 1 _ (by omega) (by omega), record_bytes_tag,
    of_bytes_to_bytes]
  norm_num

/-- A payload field read back after `serialize`. -/
theorem load_uint_serialize_payload (r : buf_patch_t) (buf : List Byte) (destination k w : Nat)
    (hfit : destination + r.record_bytes.length ≤ buf.length)
    (hk : k + w ≤ r.payload_bytes.length) :
    load_uint (r.serialize buf destination) (destination + 25 + k) w
      = of_bytes (read_bytes r.payload_bytes k w) := by
  have hl := record_bytes_length r
  rw [serialize_eq_write_bytes r buf destination hfit, Nat.add_assoc,
    load_uint_write_bytes buf destination (25 + k) w _ (by omega) (by omega),
    record_bytes_payload]

/-- With the Flush tag in the header and a length field of at least 17,
`load_patch` always ends in the failed `guarantee(data_length == 0)`. -/
theorem load_patch_flush_tag_fails (buf : List Byte) (source : Nat)
    (hlen : 17 ≤ load_uint buf source 8)
    (htag : load_uint buf (source + 24) 1 = OPER_FLUSH) :
    (load_patch buf source).2 = .error .format_error := by
  rw [load_patch_unfold, if_neg (by omega), if_neg (by omega), if_pos htag]
  simp only [flush_patch_t.from_data]
  rw [if_neg (by omega)]
  rfl

/-- No record built by a constructor comes back from `load_patch` after
`serialize`: whatever `load_patch` returns on the bytes written for `r`, it is
not `r`. -/
theorem load_patch_serialize_ne (r : buf_patch_t) (hr : r.constructed) (buf : List Byte)
    (destination : Nat) (hfit : destination + r.record_bytes.length ≤ buf.length) :
    (load_patch (r.serialize buf destination) destination).2 ≠ .ok (some r) := by
  have hl := record_bytes_length r
  have hlen := load_uint_serialize_length r buf destination (by omega)
  have htag := load_uint_serialize_tag r buf destination hfit
  cases hr with
  | flush block_id patch_counter hb hc =>
    have h := load_patch_flush_tag_fails
      ((buf_patch_t.flush (flush_patch_t.create block_id patch_counter)).serialize buf destination)
      destination
      (by
        rw [hlen]
        simp [buf_patch_t.get_serialized_size, buf_patch_t.get_data_size,
          flush_patch_t.get_data_size, sizeof_size_t, sizeof_block_id, sizeof_patch_counter,
          sizeof_operation_code, SIZE_RANGE])
      (by rw [htag]; rfl)
    rw [h]
    intro hh
    cases hh
  | memcpy block_id patch_counter dest_offset mem src n hb hc hd hn hsrc =>
    have hsb : (read_bytes mem src n).length = n := read_bytes_length mem src n hsrc
    have hpl : (buf_patch_t.memcpy (memcpy_patch_t.create block_id patch_counter dest_offset
        mem src n)).payload_bytes.length = 16 + n := by
      simp only [buf_patch_t.payload_bytes, memcpy_patch_t.create, List.length_append,
        to_bytes_length, read_bytes_all _ _ hsb, hsb]
      omega
    have hnf := load_uint_serialize_payload _ buf destination 8 8 hfit (by rw [hpl]; omega)
    have hnv : of_bytes (read_bytes (buf_patch_t.memcpy (memcpy_patch_t.create block_id
        patch_counter dest_offset mem src n)).payload_bytes 8 8) = n := by
      simp only [buf_patch_t.payload_bytes, memcpy_patch_t.create]
      rw [read_bytes_append_right _ _ 8 0 8 (by rw [to_bytes_length]),
        read_bytes_append_left _ _ 8 (to_bytes_length _ _), of_bytes_to_bytes]
      simp only [SIZE_RANGE] at hn
      norm_num
      omega
    rw [hnv] at hnf
    have hsz : (buf_patch_t.memcpy (memcpy_patch_t.create block_id patch_counter dest_offset
        mem src n)).get_serialized_size = (25 + (16 + n) % 2 ^ 64) % 2 ^ 64 := by
      simp only [buf_patch_t.get_serialized_size, buf_patch_t.get_data_size,
        memcpy_patch_t.get_data_size, memcpy_patch_t.create, sizeof_size_t, sizeof_block_id,
        sizeof_patch_counter, sizeof_operation_code, SIZE_RANGE]
    rw [hsz] at hlen
    have htag2 : load_uint ((buf_patch_t.memcpy (memcpy_patch_t.create block_id patch_counter
        dest_offset mem src n)).serialize buf destination) (destination + 24) 1 = OPER_MEMCPY := by
      rw [htag]; rfl
    simp only [SIZE_RANGE] at hn
    rw [load_patch_unfold]
    split
    · intro hh; cases hh
    · split
      · intro hh; cases hh
      · rw [if_neg (by rw [htag2]; decide), if_pos (Or.inl htag2),
          memcpy_from_data_eq _ _ _ _ _ (by rw [hlen]; simp only [SIZE_RANGE]; omega),
          if_neg (by
            rw [hnf, hlen]
            omega)]
        intro hh; cases hh
  | memmove block_id patch_counter dest_offset src_offset n hb hc hd hs hn =>
    have htag2 : load_uint ((buf_patch_t.memmove (memmove_patch_t.create block_id patch_counter
        dest_offset src_offset n)).serialize buf destination) (destination + 24) 1
          = OPER_MEMCPY := by
      rw [htag]; rfl
    rw [load_patch_unfold]
    split
    · intro hh; cases hh
    · split
      · intro hh; cases hh
      · rw [if_neg (by rw [htag2]; decide), if_pos (Or.inl htag2)]
        cases memcpy_patch_t.from_data _ _ _ (destination + 25) _ with
        | error e => intro hh; cases hh
        | ok m => intro hh; cases hh

/-- C1 at three records, one of each class, each serialized at the start of a
buffer of exactly its serialized size: `load_patch` on the bytes written by
`serialize` ends in a failed length `guarantee` and returns no record.  The
length field holds the whole serialized size (25, 44, 49) and `load_patch`
hands it unchanged to the payload constructor as `data_length`; the Move
record, tagged `OPER_MEMCPY` by its constructor, goes to the Copy-In payload
constructor. -/
theorem load_patch_serialize_fails :
    load_patch ((buf_patch_t.flush (flush_patch_t.create 1 2)).serialize
        (List.replicate 25 0) 0) 0 = (25, .error .format_error) ∧
    load_patch ((buf_patch_t.memcpy (memcpy_patch_t.create 1 2 4 [0xAA, 0xBB, 0xCC] 0 3)).serialize
        (List.replicate 44 0) 0) 0 = (25, .error .format_error) ∧
    load_patch ((buf_patch_t.memmove (memmove_patch_t.create 1 2 0 2 4)).serialize
        (List.replicate 49 0) 0) 0 = (25, .error .format_error) ∧
    (buf_patch_t.memmove (memmove_patch_t.create 1 2 0 2 4)).operation_code = OPER_MEMCPY := by
  decide

/-- C3 at the buffer of the claim's example: length field 17, block id 1,
sequence number 2, tag `OPER_FLUSH`, no payload.  The Flush payload constructor
run with payload length `17 - 17` returns the Flush record of block 1 and
sequence number 2, but `load_patch` runs it with `data_length = 17`, the
length field itself, and ends in the failed `guarantee(data_length == 0)`. -/
theorem load_patch_passes_length_field :
    (flush_patch_t.from_data 1 2
        (to_bytes 8 17 ++ to_bytes 8 1 ++ to_bytes 8 2 ++ to_bytes 1 OPER_FLUSH) 25 (17 - 17)).map
      (fun p => some (buf_patch_t.flush p))
      = .ok (some (buf_patch_t.flush (flush_patch_t.create 1 2))) ∧
    (load_patch (to_bytes 8 17 ++ to_bytes 8 1 ++ to_bytes 8 2 ++ to_bytes 1 OPER_FLUSH) 0).2
      = (flush_patch_t.from_data 1 2
        (to_bytes 8 17 ++ to_bytes 8 1 ++ to_bytes 8 2 ++ to_bytes 1 OPER_FLUSH) 25 17).map
      (fun p => some (buf_patch_t.flush p)) ∧
    (load_patch (to_bytes 8 17 ++ to_bytes 8 1 ++ to_bytes 8 2 ++ to_bytes 1 OPER_FLUSH) 0).2
      = .error .format_error := by
  decide

/-! ## Applying a Move record -/

theorem read_bytes_getElem? (buf : List Byte) (p n i : Nat) (hi : i < n) :
    (read_bytes buf p n)[i]? = buf[p + i]? := by
  unfold read_bytes
  rw [List.getElem?_take_of_lt hi, List.getElem?_drop]

/-- C11: for a Move record with `dest_offset = d`, `src_offset = s` and count
`n`, and a page (the memory at `buf_data`) that holds both `[s, s + n)` and
`[d, d + n)`, `memmove_patch_t::apply_to_buf` leaves the length of the memory
unchanged, makes the byte at page position `d + i` equal to the byte that was at
`s + i` before the call for every `i < n`, and leaves every byte outside
`[d, d + n)` as it was, whether or not the two ranges overlap; on the page
`0 1 2 3 4 5 6 7` the record with `dest_offset = 0`, `src_offset = 2`, `n = 4`
gives `2 3 4 5 4 5 6 7`. -/
theorem memmove_apply_to_buf_spec (p : memmove_patch_t) (mem : List Byte) (buf_data : Nat)
    (hsrc : buf_data + p.src_offset + p.n ≤ mem.length)
    (hdst : buf_data + p.dest_offset + p.n ≤ mem.length) :
    (p.apply_to_buf mem buf_data).length = mem.length ∧
    (∀ i, i < p.n →
      (p.apply_to_buf mem buf_data)[buf_data + p.dest_offset + i]?
        = mem[buf_data + p.src_offset + i]?) ∧
    (∀ j, j < buf_data + p.dest_offset ∨ buf_data + p.dest_offset + p.n ≤ j →
      (p.apply_to_buf mem buf_data)[j]? = mem[j]?) ∧
    (∀ block_id patch_counter,
      (memmove_patch_t.create block_id patch_counter 0 2 4).apply_to_buf
        [0, 1, 2, 3, 4, 5, 6, 7] 0 = [2, 3, 4, 5, 4, 5, 6, 7]) := by
  unfold memmove_patch_t.apply_to_buf
  have hl : (read_bytes mem (buf_data + p.src_offset) p.n).length = p.n :=
    read_bytes_length _ _ _ hsrc
  refine ⟨?_, ?_, ?_, fun _ _ => rfl⟩
  · apply write_bytes_length
    omega
  · intro i hi
    rw [write_bytes_getElem?_inside _ _ _ _ (by omega) (by omega),
      read_bytes_getElem? _ _ _ _ hi]
  · intro j hj
    apply write_bytes_getElem?_outside
    · omega
    · omega

/-- A backward-overlapping move (`dest_offset = 2`, `src_offset = 0`, `n = 4`)
on the page `0 1 2 3 4 5 6 7`: position 5 receives the old byte 3, position 6
is untouched. -/
theorem memmove_apply_to_buf_spec_witness :
    ((memmove_patch_t.create 1 2 2 0 4).apply_to_buf [0, 1, 2, 3, 4, 5, 6, 7] 0).length = 8 ∧
    ((memmove_patch_t.create 1 2 2 0 4).apply_to_buf [0, 1, 2, 3, 4, 5, 6, 7] 0)[5]? = some 3 ∧
    ((memmove_patch_t.create 1 2 2 0 4).apply_to_buf [0, 1, 2, 3, 4, 5, 6, 7] 0)[6]? = some 6 :=
  have h := memmove_apply_to_buf_spec (memmove_patch_t.create 1 2 2 0 4)
    [0, 1, 2, 3, 4, 5, 6, 7] 0 (by decide) (by decide)
  ⟨h.1, h.2.1 3 (by decide), h.2.2.1 6 (by decide)⟩

/-! ## Tags and classes -/

/-- C12 at the Move record built by `memmove_patch_t(1, 2, 0, 2, 4)`: its
`operation_code` is `OPER_MEMCPY`, the Copy-In tag, not `OPER_MEMMOVE`.  For
all arguments the Flush constructor stores `OPER_FLUSH`, the Copy-In
constructor stores `OPER_MEMCPY`, and the Move constructor stores
`OPER_MEMCPY` as well, so the tag of a constructed Move record never agrees
with its class. -/
theorem memmove_create_carries_memcpy_tag :
    (buf_patch_t.memmove (memmove_patch_t.create 1 2 0 2 4)).operation_code = OPER_MEMCPY ∧
    (buf_patch_t.memmove (memmove_patch_t.create 1 2 0 2 4)).operation_code ≠ OPER_MEMMOVE ∧
    (∀ block_id patch_counter,
      (buf_patch_t.flush (flush_patch_t.create block_id patch_counter)).tag_agrees) ∧
    (∀ block_id patch_counter dest_offset mem src n,
      (buf_patch_t.memcpy
        (memcpy_patch_t.create block_id patch_counter dest_offset mem src n)).tag_agrees) ∧
    (∀ block_id patch_counter dest_offset src_offset n,
      ¬ (buf_patch_t.memmove
        (memmove_patch_t.create block_id patch_counter dest_offset src_offset n)).tag_agrees) := by
  refine ⟨rfl, by decide, fun _ _ => rfl, fun _ _ _ _ _ _ => rfl, fun _ _ _ _ _ h => ?_⟩
  have h2 : OPER_MEMCPY = OPER_MEMMOVE := h
  exact absurd h2 (by decide)

theorem flush_from_data_tag (block_id patch_counter : Nat) (buf : List Byte)
    (data data_length : Nat) (p : flush_patch_t)
    (h : flush_patch_t.from_data block_id patch_counter buf data data_length = .ok p) :
    p.operation_code = OPER_FLUSH := by
  unfold flush_patch_t.from_data at h
  split at h
  · cases h; rfl
  · cases h

theorem memcpy_from_data_tag (block_id patch_counter : Nat) (buf : List Byte)
    (data data_length : Nat) (p : memcpy_patch_t)
    (h : memcpy_patch_t.from_data block_id patch_counter buf data data_length = .ok p) :
    p.operation_code = OPER_MEMCPY := by
  unfold memcpy_patch_t.from_data at h
  split at h
  · cases h
  · simp only at h
    split at h
    · cases h
    · cases h; rfl

/-- What `load_patch` returns when it returns a record: a Flush record made by
the Flush payload constructor or a Copy-In record made by the Copy-In payload
constructor. -/
theorem load_patch_returns (buf : List Byte) (source : Nat) (r : buf_patch_t)
    (h : (load_patch buf source).2 = .ok (some r)) :
    (∃ p b c d l, flush_patch_t.from_data b c buf d l = .ok p ∧ r = .flush p) ∨
    (∃ p b c d l, memcpy_patch_t.from_data b c buf d l = .ok p ∧ r = .memcpy p) := by
  rw [load_patch_unfold] at h
  split at h
  · cases h
  · split at h
    · cases h
    · split at h
      · simp only at h
        cases hf : flush_patch_t.from_data (load_uint buf (source + 8) 8)
            (load_uint buf (source + 16) 8) buf (source + 25) (load_uint buf source 8) with
        | error e => rw [hf] at h; cases h
        | ok p =>
          rw [hf] at h
          cases h
          exact Or.inl ⟨p, _, _, _, _, hf, rfl⟩
      · split at h
        · simp only at h
          cases hm : memcpy_patch_t.from_data (load_uint buf (source + 8) 8)
              (load_uint buf (source + 16) 8) buf (source + 25) (load_uint buf source 8) with
          | error e => rw [hm] at h; cases h
          | ok p =>
            rw [hm] at h
            cases h
            exact Or.inr ⟨p, _, _, _, _, hm, rfl⟩
        · cases h

/-- C13: whenever `load_patch` returns a record, the `operation_code` stored in
the record is the tag of the record's class: `OPER_FLUSH` in a Flush record,
`OPER_MEMCPY` in a Copy-In record, `OPER_MEMMOVE` in a Move record. -/
theorem load_patch_tag_agrees (buf : List Byte) (source : Nat) (r : buf_patch_t)
    (h : (load_patch buf source).2 = .ok (some r)) : r.tag_agrees := by
  rcases load_patch_returns buf source r h with ⟨p, b, c, d, l, hp, rfl⟩ | ⟨p, b, c, d, l, hp, rfl⟩
  · exact flush_from_data_tag b c buf d l p hp
  · exact memcpy_from_data_tag b c buf d l p hp

/-- A buffer with length field 19, tag `OPER_MEMCPY` and a payload of 19 bytes:
`load_patch` returns a Copy-In record, whose tag is `OPER_MEMCPY`. -/
theorem load_patch_tag_agrees_witness :
    (load_patch (to_bytes 8 19 ++ to_bytes 8 1 ++ to_bytes 8 2 ++ to_bytes 1 OPER_MEMCPY
        ++ to_bytes 8 4 ++ to_bytes 8 3 ++ [0xAA, 0xBB, 0xCC]) 0).2
      = .ok (some (buf_patch_t.memcpy
          { block_id := 1, patch_counter := 2, operation_code := OPER_MEMCPY,
            dest_offset := 4, n := 3, src_buf := [0xAA, 0xBB, 0xCC] })) ∧
    (buf_patch_t.memcpy
          { block_id := 1, patch_counter := 2, operation_code := OPER_MEMCPY,
            dest_offset := 4, n := 3, src_buf := [0xAA, 0xBB, 0xCC] }).tag_agrees :=
  ⟨by decide,
   load_patch_tag_agrees (to_bytes 8 19 ++ to_bytes 8 1 ++ to_bytes 8 2 ++ to_bytes 1 OPER_MEMCPY
        ++ to_bytes 8 4 ++ to_bytes 8 3 ++ [0xAA, 0xBB, 0xCC]) 0 _ (by decide)⟩

/-- C20: whenever `load_patch` returns a record, the record is a Flush record or
a Copy-In record and never a Move record; with the tag byte `OPER_MEMMOVE` in
the header, whatever `load_patch` returns is what the Copy-In payload
constructor makes. -/
theorem load_patch_never_returns_move (buf : List Byte) (source : Nat) (r : buf_patch_t)
    (h : (load_patch buf source).2 = .ok (some r)) :
    (∀ p, r ≠ .memmove p) ∧
    ((∃ p, r = .flush p) ∨ (∃ p, r = .memcpy p)) ∧
    (load_uint buf (source + 24) 1 = OPER_MEMMOVE → ∃ p, r = .memcpy p) := by
  have hret := load_patch_returns buf source r h
  refine ⟨?_, ?_, ?_⟩
  · rcases hret with ⟨p, _, _, _, _, _, rfl⟩ | ⟨p, _, _, _, _, _, rfl⟩ <;> intro q hq <;> cases hq
  · rcases hret with ⟨p, _, _, _, _, _, rfl⟩ | ⟨p, _, _, _, _, _, rfl⟩
    · exact Or.inl ⟨p, rfl⟩
    · exact Or.inr ⟨p, rfl⟩
  · intro htag
    rcases hret with ⟨p, _, _, _, _, _, rfl⟩ | ⟨p, _, _, _, _, _, rfl⟩
    · exfalso
      rw [load_patch_unfold] at h
      have hne : ¬ load_uint buf (source + 24) 1 = OPER_FLUSH := by rw [htag]; decide
      split at h
      · cases h
      · split at h
        · cases h
        · rw [if_pos (Or.inr htag)] at h
          simp only at h
          cases hm : memcpy_patch_t.from_data (load_uint buf (source + 8) 8)
              (load_uint buf (source + 16) 8) buf (source + 25) (load_uint buf source 8) with
          | error e => rw [hm] at h; cases h
          | ok q => rw [hm] at h; cases h
    · exact ⟨p, rfl⟩

/-- A buffer with length field 18, tag `OPER_MEMMOVE` and 18 bytes behind the
tag: `load_patch` returns a Copy-In record. -/
theorem load_patch_never_returns_move_witness :
    (load_patch (to_bytes 8 18 ++ to_bytes 8 7 ++ to_bytes 8 9 ++ to_bytes 1 OPER_MEMMOVE
        ++ to_bytes 8 5 ++ to_bytes 8 2 ++ [0x11, 0x22]) 0).2
      = .ok (some (buf_patch_t.memcpy
          { block_id := 7, patch_counter := 9, operation_code := OPER_MEMCPY,
            dest_offset := 5, n := 2, src_buf := [0x11, 0x22] })) ∧
    ∃ p, buf_patch_t.memcpy
          { block_id := 7, patch_counter := 9, operation_code := OPER_MEMCPY,
            dest_offset := 5, n := 2, src_buf := [0x11, 0x22] } = buf_patch_t.memcpy p :=
  ⟨by decide,
   (load_patch_never_returns_move (to_bytes 8 18 ++ to_bytes 8 7 ++ to_bytes 8 9
        ++ to_bytes 1 OPER_MEMMOVE ++ to_bytes 8 5 ++ to_bytes 8 2 ++ [0x11, 0x22]) 0 _
      (by decide)).2.2 (by decide)⟩

/-! ## The layout of a serialized record -/

theorem record_bytes_block_id (r : buf_patch_t) :
    read_bytes r.record_bytes 8 8 = to_bytes 8 r.block_id := by
  unfold buf_patch_t.record_bytes
  rw [read_bytes_append_right _ _ 8 0 8 (by rw [to_bytes_length]),
    read_bytes_append_left _ _ 8 (to_bytes_length _ _)]

theorem record_bytes_patch_counter (r : buf_patch_t) :
    read_bytes r.record_bytes 16 8 = to_bytes 8 r.patch_counter := by
  unfold buf_patch_t.record_bytes
  rw [read_bytes_append_right _ _ 16 8 8 (by rw [to_bytes_length]),
    read_bytes_append_right _ _ 8 0 8 (by rw [to_bytes_length]),
    read_bytes_append_left _ _ 8 (to_bytes_length _ _)]

/-- For a valid record `get_data_size` is the number of payload bytes. -/
theorem payload_bytes_length (r : buf_patch_t) (hv : r.valid) :
    r.payload_bytes.length = r.get_data_size := by
  cases r with
  | flush p => rfl
  | memcpy p =>
    obtain ⟨_, _, _, _, hl, hn⟩ := hv
    simp only [SIZE_RANGE] at hn
    simp only [buf_patch_t.payload_bytes, buf_patch_t.get_data_size,
      memcpy_patch_t.get_data_size, List.length_append, to_bytes_length,
      read_bytes_all _ _ hl, hl, sizeof_size_t, SIZE_RANGE]
    omega
  | memmove p =>
    simp only [buf_patch_t.payload_bytes, buf_patch_t.get_data_size,
      memmove_patch_t.get_data_size, List.length_append, to_bytes_length, sizeof_size_t]

/-- For a valid record `get_serialized_size` is 25 plus the payload size, without
wrap-around. -/
theorem get_serialized_size_valid (r : buf_patch_t) (hv : r.valid) :
    r.get_serialized_size = 25 + r.get_data_size := by
  have hd : 25 + r.get_data_size < 2 ^ 64 := by
    cases r with
    | flush p => simp [buf_patch_t.get_data_size, flush_patch_t.get_data_size]
    | memcpy p =>
      obtain ⟨_, _, _, _, hl, hn⟩ := hv
      simp only [SIZE_RANGE] at hn
      simp only [buf_patch_t.get_data_size, memcpy_patch_t.get_data_size, sizeof_size_t,
        SIZE_RANGE]
      omega
    | memmove p =>
      simp [buf_patch_t.get_data_size, memmove_patch_t.get_data_size, sizeof_size_t]
  simp only [buf_patch_t.get_serialized_size, sizeof_size_t, sizeof_block_id,
    sizeof_patch_counter, sizeof_operation_code, SIZE_RANGE]
  omega

theorem record_bytes_length_valid (r : buf_patch_t) (hv : r.valid) :
    r.record_bytes.length = r.get_serialized_size := by
  rw [record_bytes_length, payload_bytes_length r hv, get_serialized_size_valid r hv]

theorem valid_block_id (r : buf_patch_t) (hv : r.valid) : r.block_id < 2 ^ 64 := by
  cases r <;> exact hv.1

theorem valid_patch_counter (r : buf_patch_t) (hv : r.valid) : r.patch_counter < 2 ^ 64 := by
  cases r <;> exact hv.2.1

theorem valid_operation_code (r : buf_patch_t) (hv : r.valid) : r.operation_code < 256 := by
  cases r with
  | flush p => exact hv.2.2
  | memcpy p => exact hv.2.2.1
  | memmove p => exact hv.2.2.1

/-- C14: for a valid record written by `serialize` at `destination`, the 8
bytes at offset 8 behind `destination` hold the block id, the 8 bytes at offset
16 the sequence number, the byte at offset 24 the tag, and the
`get_data_size` bytes from offset 25 on are exactly the bytes that
`serialize_data` stores there; the record ends with them, as
`get_serialized_size` is 25 plus `get_data_size`. -/
theorem serialize_layout (r : buf_patch_t) (hv : r.valid) (buf : List Byte)
    (destination : Nat) (hfit : destination + r.get_serialized_size ≤ buf.length) :
    load_uint (r.serialize buf destination) (destination + 8) 8 = r.block_id ∧
    load_uint (r.serialize buf destination) (destination + 16) 8 = r.patch_counter ∧
    load_uint (r.serialize buf destination) (destination + 24) 1 = r.operation_code ∧
    read_bytes (r.serialize buf destination) (destination + 25) r.get_data_size
      = read_bytes (r.serialize_data buf (destination + 25)) (destination + 25)
          r.get_data_size ∧
    (read_bytes (r.serialize buf destination) (destination + 25) r.get_data_size).length
      = r.get_data_size ∧
    r.get_serialized_size = 25 + r.get_data_size := by
  have hrl := record_bytes_length_valid r hv
  have hpl := payload_bytes_length r hv
  have hsz := get_serialized_size_valid r hv
  have hfit2 : destination + r.record_bytes.length ≤ buf.length := by omega
  have hb := valid_block_id r hv
  have hc := valid_patch_counter r hv
  have ho := valid_operation_code r hv
  have hpay : read_bytes (r.serialize buf destination) (destination + 25) r.get_data_size
      = r.payload_bytes := by
    rw [serialize_eq_write_bytes r buf destination hfit2,
      read_bytes_write_bytes_inside buf destination 25 _ _ (by omega) (by omega),
      record_bytes_payload r 0, read_bytes_all _ _ hpl]
  refine ⟨?_, ?_, ?_, ?_, ?_, hsz⟩
  · rw [serialize_eq_write_bytes r buf destination hfit2,
      load_uint_write_bytes buf destination 8 8 _ (by omega) (by omega), record_bytes_block_id,
      of_bytes_to_bytes]
    norm_num
    omega
  · rw [serialize_eq_write_bytes r buf destination hfit2,
      load_uint_write_bytes buf destination 16 8 _ (by omega) (by omega),
      record_bytes_patch_counter, of_bytes_to_bytes]
    norm_num
    omega
  · rw [load_uint_serialize_tag r buf destination hfit2]
    omega
  · rw [hpay, serialize_data_eq_write_bytes r buf (destination + 25) (by omega)]
    have h := read_bytes_write_bytes_inside buf (destination + 25) 0 r.get_data_size
      r.payload_bytes (by omega) (by omega)
    rw [Nat.add_zero] at h
    rw [h, read_bytes_all _ _ hpl]
  · rw [hpay, hpl]

/-- The Copy-In record of block 1, sequence number 2, `dest_offset = 4` and
bytes `AA BB CC`, written at offset 2 of a 50-byte buffer: the tag byte at
offset 26 is `OPER_MEMCPY` and the serialized size is 25 + 19. -/
theorem serialize_layout_witness :
    load_uint ((buf_patch_t.memcpy (memcpy_patch_t.create 1 2 4 [0xAA, 0xBB, 0xCC] 0 3)).serialize
      (List.replicate 50 0) 2) (2 + 24) 1 = OPER_MEMCPY ∧
    (buf_patch_t.memcpy (memcpy_patch_t.create 1 2 4 [0xAA, 0xBB, 0xCC] 0 3)).get_serialized_size
      = 25 + 19 :=
  have h := serialize_layout
    (buf_patch_t.memcpy (memcpy_patch_t.create 1 2 4 [0xAA, 0xBB, 0xCC] 0 3)) (by decide)
    (List.replicate 50 0) 2 (by decide)
  ⟨h.2.2.1, h.2.2.2.2.2⟩

/-- C17: for a valid record and a destination with room for
`get_serialized_size` bytes, `get_serialized_size` is `8 + 17 + get_data_size`
and `serialize` writes exactly that many bytes: the memory keeps its length,
the `get_serialized_size` bytes from `destination` on are the record's bytes,
and every byte before `destination` or at or beyond
`destination + get_serialized_size` keeps its previous value. -/
theorem serialize_frame (r : buf_patch_t) (hv : r.valid) (buf : List Byte)
    (destination : Nat) (hfit : destination + r.get_serialized_size ≤ buf.length) :
    r.get_serialized_size = 8 + 17 + r.get_data_size ∧
    (r.serialize buf destination).length = buf.length ∧
    (∀ j, destination + r.get_serialized_size ≤ j →
      (r.serialize buf destination)[j]? = buf[j]?) ∧
    (∀ j, j < destination → (r.serialize buf destination)[j]? = buf[j]?) ∧
    read_bytes (r.serialize buf destination) destination r.get_serialized_size
      = r.record_bytes := by
  have hrl := record_bytes_length_valid r hv
  have hsz := get_serialized_size_valid r hv
  have hfit2 : destination + r.record_bytes.length ≤ buf.length := by omega
  rw [serialize_eq_write_bytes r buf destination hfit2]
  refine ⟨by omega, write_bytes_length _ _ _ hfit2, ?_, ?_, ?_⟩
  · intro j hj
    exact write_bytes_getElem?_outside buf destination j _ hfit2 (Or.inr (by omega))
  · intro j hj
    exact write_bytes_getElem?_outside buf destination j _ hfit2 (Or.inl hj)
  · have h := read_bytes_write_bytes_inside buf destination 0 r.get_serialized_size
      r.record_bytes (by omega) (by omega)
    rw [Nat.add_zero] at h
    rw [h, read_bytes_all _ _ hrl]

/-- The Move record of block 1, sequence number 2, written at offset 1 of a
52-byte buffer of `FF` bytes: 49 bytes are written, the bytes at offsets 0 and
50 keep the value `FF`. -/
theorem serialize_frame_witness :
    (buf_patch_t.memmove (memmove_patch_t.create 1 2 0 2 4)).get_serialized_size = 8 + 17 + 24 ∧
    ((buf_patch_t.memmove (memmove_patch_t.create 1 2 0 2 4)).serialize
      (List.replicate 52 0xFF) 1)[50]? = some 0xFF ∧
    ((buf_patch_t.memmove (memmove_patch_t.create 1 2 0 2 4)).serialize
      (List.replicate 52 0xFF) 1)[0]? = some 0xFF :=
  have h := serialize_frame (buf_patch_t.memmove (memmove_patch_t.create 1 2 0 2 4))
    (by decide) (List.replicate 52 0xFF) 1 (by decide)
  ⟨h.1, (h.2.2.1 50 (by decide)).trans (by decide), (h.2.2.2.1 0 (by decide)).trans (by decide)⟩

/-! ## Payload encoders against payload constructors -/

/-- C16: for a Copy-In record that owns its `n` bytes and whose payload size
`16 + n` is a `size_t` value, and for every Move record, the class's payload
constructor run on the bytes stored by the record's `serialize_data`, with
`data_length = get_data_size`, succeeds and returns a record with the same
payload members (Copy-In: `dest_offset`, `n`, owned bytes; Move: `dest_offset`,
`src_offset`, `n`) and the block id and sequence number it was given. -/
theorem payload_round_trip :
    (∀ (p : memcpy_patch_t) (block_id patch_counter : Nat) (buf : List Byte)
        (destination : Nat),
      p.dest_offset < SIZE_RANGE → p.src_buf.length = p.n → 16 + p.n < SIZE_RANGE →
      destination + p.get_data_size ≤ buf.length →
      ∃ q, memcpy_patch_t.from_data block_id patch_counter (p.serialize_data buf destination)
            destination p.get_data_size = .ok q ∧
        q.dest_offset = p.dest_offset ∧ q.n = p.n ∧ q.src_buf = p.src_buf ∧
        q.block_id = block_id ∧ q.patch_counter = patch_counter) ∧
    (∀ (p : memmove_patch_t) (block_id patch_counter : Nat) (buf : List Byte)
        (destination : Nat),
      p.dest_offset < SIZE_RANGE → p.src_offset < SIZE_RANGE → p.n < SIZE_RANGE →
      destination + p.get_data_size ≤ buf.length →
      ∃ q, memmove_patch_t.from_data block_id patch_counter (p.serialize_data buf destination)
            destination p.get_data_size = .ok q ∧
        q.dest_offset = p.dest_offset ∧ q.src_offset = p.src_offset ∧ q.n = p.n ∧
        q.block_id = block_id ∧ q.patch_counter = patch_counter) := by
  constructor
  · intro p block_id patch_counter buf destination hd hl hn hfit
    simp only [SIZE_RANGE] at hd hn
    have hgs : p.get_data_size = 16 + p.n := by
      simp only [memcpy_patch_t.get_data_size, sizeof_size_t, SIZE_RANGE]
      omega
    rw [hgs] at hfit ⊢
    have hpl : (buf_patch_t.memcpy p).payload_bytes.length = 16 + p.n := by
      simp only [buf_patch_t.payload_bytes, List.length_append, to_bytes_length,
        read_bytes_all _ _ hl, hl]
      omega
    have hser : p.serialize_data buf destination
        = write_bytes buf destination (buf_patch_t.memcpy p).payload_bytes :=
      serialize_data_eq_write_bytes (buf_patch_t.memcpy p) buf destination (by omega)
    have hdest : load_uint (p.serialize_data buf destination) destination 8 = p.dest_offset := by
      have h := load_uint_write_bytes buf destination 0 8 (buf_patch_t.memcpy p).payload_bytes
        (by omega) (by omega)
      rw [Nat.add_zero] at h
      rw [hser, h]
      simp only [buf_patch_t.payload_bytes]
      rw [read_bytes_append_left _ _ 8 (to_bytes_length _ _), of_bytes_to_bytes]
      norm_num
      omega
    have hnn : load_uint (p.serialize_data buf destination) (destination + 8) 8 = p.n := by
      rw [hser, load_uint_write_bytes buf destination 8 8 _ (by omega) (by omega)]
      simp only [buf_patch_t.payload_bytes]
      rw [read_bytes_append_right _ _ 8 0 8 (by rw [to_bytes_length]),
        read_bytes_append_left _ _ 8 (to_bytes_length _ _), of_bytes_to_bytes]
      norm_num
      omega
    have hsrc : read_bytes (p.serialize_data buf destination) (destination + 16) p.n
        = p.src_buf := by
      rw [hser, read_bytes_write_bytes_inside buf destination 16 p.n _ (by omega) (by omega)]
      simp only [buf_patch_t.payload_bytes]
      rw [read_bytes_append_right _ _ 16 8 p.n (by rw [to_bytes_length]),
        read_bytes_append_right _ _ 8 0 p.n (by rw [to_bytes_length]),
        read_bytes_all _ _ hl, read_bytes_all _ _ hl]
    rw [memcpy_from_data_eq _ _ _ _ _ (by simp only [SIZE_RANGE]; omega), hnn, hdest, hsrc,
      if_pos (by omega)]
    exact ⟨_, rfl, rfl, rfl, rfl, rfl, rfl⟩
  · intro p block_id patch_counter buf destination hd hs hn hfit
    simp only [SIZE_RANGE] at hd hs hn
    have hgs : p.get_data_size = 24 := rfl
    rw [hgs] at hfit ⊢
    have hpl : (buf_patch_t.memmove p).payload_bytes.length = 24 := by
      simp only [buf_patch_t.payload_bytes, List.length_append, to_bytes_length]
    have hser : p.serialize_data buf destination
        = write_bytes buf destination (buf_patch_t.memmove p).payload_bytes :=
      serialize_data_eq_write_bytes (buf_patch_t.memmove p) buf destination (by omega)
    have hdest : load_uint (p.serialize_data buf destination) destination 8 = p.dest_offset := by
      have h := load_uint_write_bytes buf destination 0 8 (buf_patch_t.memmove p).payload_bytes
        (by omega) (by omega)
      rw [Nat.add_zero] at h
      rw [hser, h]
      simp only [buf_patch_t.payload_bytes]
      rw [read_bytes_append_left _ _ 8 (to_bytes_length _ _), of_bytes_to_bytes]
      norm_num
      omega
    have hsrc : load_uint (p.serialize_data buf destination) (destination + 8) 8
        = p.src_offset := by
      rw [hser, load_uint_write_bytes buf destination 8 8 _ (by omega) (by omega)]
      simp only [buf_patch_t.payload_bytes]
      rw [read_bytes_append_right _ _ 8 0 8 (by rw [to_bytes_length]),
        read_bytes_append_left _ _ 8 (to_bytes_length _ _), of_bytes_to_bytes]
      norm_num
      omega
    have hnn : load_uint (p.serialize_data buf destination) (destination + 16) 8 = p.n := by
      rw [hser, load_uint_write_bytes buf destination 16 8 _ (by omega) (by omega)]
      simp only [buf_patch_t.payload_bytes]
      rw [read_bytes_append_right _ _ 16 8 8 (by rw [to_bytes_length]),
        read_bytes_append_right _ _ 8 0 8 (by rw [to_bytes_length]),
        read_bytes_all _ _ (to_bytes_length _ _), of_bytes_to_bytes]
      norm_num
      omega
    simp only [memmove_patch_t.from_data, sizeof_size_t, Nat.add_assoc, Nat.reduceAdd,
      not_true_eq_false, if_false, hdest, hsrc, hnn]
    exact ⟨_, rfl, rfl, rfl, rfl, rfl, rfl⟩

/-- The Copy-In record with bytes `AA BB CC` and the Move record `(0, 2, 4)`,
each with its payload stored at offset 3 of a zeroed buffer. -/
theorem payload_round_trip_witness :
    (∃ q, memcpy_patch_t.from_data 1 2
          ((memcpy_patch_t.create 1 2 4 [0xAA, 0xBB, 0xCC] 0 3).serialize_data
            (List.replicate 30 0) 3) 3
          (memcpy_patch_t.create 1 2 4 [0xAA, 0xBB, 0xCC] 0 3).get_data_size = .ok q ∧
        q.src_buf = [0xAA, 0xBB, 0xCC]) ∧
    (∃ q, memmove_patch_t.from_data 1 2
          ((memmove_patch_t.create 1 2 0 2 4).serialize_data (List.replicate 30 0) 3) 3
          (memmove_patch_t.create 1 2 0 2 4).get_data_size = .ok q ∧
        q.src_offset = 2) :=
  ⟨(payload_round_trip.1 (memcpy_patch_t.create 1 2 4 [0xAA, 0xBB, 0xCC] 0 3) 1 2
      (List.replicate 30 0) 3 (by decide) (by decide) (by decide) (by decide)).imp
      (fun _ h => ⟨h.1, h.2.2.2.1⟩),
   (payload_round_trip.2 (memmove_patch_t.create 1 2 0 2 4) 1 2
      (List.replicate 30 0) 3 (by decide) (by decide) (by decide) (by decide)).imp
      (fun _ h => ⟨h.1, h.2.2.1⟩)⟩

/-- C18: whenever the Copy-In payload constructor accepts a payload of
`data_length` bytes, the count `n` it read from payload bytes 8..15 satisfies
`16 + n = data_length` without wrap-around, so the `n` bytes it copies are the
payload bytes from offset 16 to the end of the payload and none beyond it. -/
theorem memcpy_from_data_no_wrap (block_id patch_counter : Nat) (buf : List Byte)
    (data data_length : Nat) (r : memcpy_patch_t)
    (hsize : data_length < SIZE_RANGE)
    (hbuf : data + data_length ≤ buf.length)
    (h : memcpy_patch_t.from_data block_id patch_counter buf data data_length = .ok r) :
    r.n = load_uint buf (data + 8) 8 ∧
    16 ≤ data_length ∧ r.n = data_length - 16 ∧ 16 + r.n = data_length ∧
    r.src_buf = read_bytes buf (data + 16) (data_length - 16) ∧
    r.src_buf = (read_bytes buf data data_length).drop 16 ∧
    r.src_buf.length = r.n ∧
    data + 16 + r.n ≤ data + data_length := by
  rw [memcpy_from_data_eq block_id patch_counter buf data data_length hsize] at h
  split at h
  · rename_i hc
    cases h
    simp only
    have hdrop : read_bytes buf (data + 16) (data_length - 16)
        = (read_bytes buf data data_length).drop 16 := by
      unfold read_bytes
      rw [List.drop_take, List.drop_drop]
    have hlen : (read_bytes buf (data + 16) (load_uint buf (data + 8) 8)).length
        = load_uint buf (data + 8) 8 := by
      apply read_bytes_length
      omega
    refine ⟨trivial, hc.1, hc.2.symm, by omega, ?_, ?_, hlen, by omega⟩
    · rw [hc.2]
    · rw [← hdrop, hc.2]
  · cases h

/-- A payload of 19 bytes with `n = 3` is accepted: `16 + 3 = 19`, and the
owned bytes are the last three payload bytes. -/
theorem memcpy_from_data_no_wrap_witness :
    memcpy_patch_t.from_data 1 2 (to_bytes 8 4 ++ to_bytes 8 3 ++ [0xAA, 0xBB, 0xCC]) 0 19
      = .ok { block_id := 1, patch_counter := 2, operation_code := OPER_MEMCPY,
              dest_offset := 4, n := 3, src_buf := [0xAA, 0xBB, 0xCC] } ∧
    (3 : Nat) = 19 - 16 ∧
    [0xAA, 0xBB, 0xCC]
      = (read_bytes (to_bytes 8 4 ++ to_bytes 8 3 ++ [0xAA, 0xBB, 0xCC]) 0 19).drop 16 :=
  have h := memcpy_from_data_no_wrap 1 2 (to_bytes 8 4 ++ to_bytes 8 3 ++ [0xAA, 0xBB, 0xCC]) 0 19
    { block_id := 1, patch_counter := 2, operation_code := OPER_MEMCPY,
      dest_offset := 4, n := 3, src_buf := [0xAA, 0xBB, 0xCC] }
    (by decide) (by decide) (by decide)
  ⟨by decide, h.2.2.1, h.2.2.2.2.2.1⟩

/-! ## Two records with one serialization, and scanning a stream -/

/-- C19 at the Move record `memmove_patch_t(1, 2, dest_offset = 0,
src_offset = 8, n = 5)` and the Copy-In record `memcpy_patch_t(1, 2,
dest_offset = 0, src = 05 00 00 00 00 00 00 00, n = 8)`: `serialize` writes
the same 49 bytes for both, into every buffer at every offset, although one is
a Move record and the other a Copy-In record.  Both constructors store the tag
`OPER_MEMCPY`, and the three 8-byte fields of the Move payload read as
`dest_offset`, count 8 and eight owned bytes of a Copy-In payload. -/
theorem serialize_not_injective :
    (∀ (buf : List Byte) (destination : Nat),
      (buf_patch_t.memmove (memmove_patch_t.create 1 2 0 8 5)).serialize buf destination
        = (buf_patch_t.memcpy (memcpy_patch_t.create 1 2 0 (to_bytes 8 5) 0 8)).serialize
            buf destination) ∧
    (buf_patch_t.memmove (memmove_patch_t.create 1 2 0 8 5)).get_serialized_size = 49 ∧
    (buf_patch_t.memcpy (memcpy_patch_t.create 1 2 0 (to_bytes 8 5) 0 8)).get_serialized_size
      = 49 ∧
    (buf_patch_t.memmove (memmove_patch_t.create 1 2 0 8 5)).serialize (List.replicate 49 0) 0
      = to_bytes 8 49 ++ to_bytes 8 1 ++ to_bytes 8 2 ++ to_bytes 1 OPER_MEMCPY
          ++ to_bytes 8 0 ++ to_bytes 8 8 ++ to_bytes 8 5 ∧
    buf_patch_t.memmove (memmove_patch_t.create 1 2 0 8 5)
      ≠ buf_patch_t.memcpy (memcpy_patch_t.create 1 2 0 (to_bytes 8 5) 0 8) := by
  refine ⟨fun _ _ => rfl, by decide, by decide, by decide, by decide⟩

set_option maxRecDepth 16000 in
/-- C15 at the stream of the Flush record `(1, 1)`, the Copy-In record
`(1, 2, dest_offset = 4, bytes AA BB CC)` and the Move record
`(1, 3, dest_offset = 0, src_offset = 2, n = 4)`, 126 bytes with the sentinel:
`load_patch` at cursor 0, the first call of the scan, ends in a failed length
`guarantee` and returns no record, and so does `load_patch` at the start of the
second record (cursor 25) and of the third (cursor 69); only at the sentinel
(cursor 118) does it return, with `NULL`. -/
theorem load_patch_stream_fails :
    (three_record_stream (.flush (flush_patch_t.create 1 1))
      (.memcpy (memcpy_patch_t.create 1 2 4 [0xAA, 0xBB, 0xCC] 0 3))
      (.memmove (memmove_patch_t.create 1 3 0 2 4))).length = 126 ∧
    load_patch (three_record_stream (.flush (flush_patch_t.create 1 1))
      (.memcpy (memcpy_patch_t.create 1 2 4 [0xAA, 0xBB, 0xCC] 0 3))
      (.memmove (memmove_patch_t.create 1 3 0 2 4))) 0 = (25, .error .format_error) ∧
    load_patch (three_record_stream (.flush (flush_patch_t.create 1 1))
      (.memcpy (memcpy_patch_t.create 1 2 4 [0xAA, 0xBB, 0xCC] 0 3))
      (.memmove (memmove_patch_t.create 1 3 0 2 4))) 25 = (50, .error .format_error) ∧
    load_patch (three_record_stream (.flush (flush_patch_t.create 1 1))
      (.memcpy (memcpy_patch_t.create 1 2 4 [0xAA, 0xBB, 0xCC] 0 3))
      (.memmove (memmove_patch_t.create 1 3 0 2 4))) 69 = (94, .error .format_error) ∧
    load_patch (three_record_stream (.flush (flush_patch_t.create 1 1))
      (.memcpy (memcpy_patch_t.create 1 2 4 [0xAA, 0xBB, 0xCC] 0 3))
      (.memmove (memmove_patch_t.create 1 3 0 2 4))) 118 = (126, .ok none) := by
  decide

end BufPatch
